import Mathlib

/-!
Verification development for the MongoDB → Neo4j import script
(`TP4/Scripts/MongoToNeo4j.py`).

The Python code is shallowly embedded:
* Python values occurring in source documents are modelled by `Value`
  (dictionaries are one level deep, which covers every access the script
  performs: `_id["$oid"]` and `volume["$numberDouble"]`).
* CPython `float` objects are modelled exactly as scaled decimals
  (`PyFloat.finite units scale` denotes `units · 10 ^ (-scale)`), plus the
  special values `inf`, `-inf`, `nan`.  The claims only involve decimal
  literals that binary doubles represent exactly, so this model is exact on
  every value the theorems mention; `PyFloat.toRat` gives the numeric reading.
* Code that can raise an exception is modelled in `Except String`, the
  string being the exception text.
* The Neo4j graph is a record of node and edge lists; `MERGE` is
  match-or-create keyed on structural value equality.
-/

/-- Exact model of a CPython float: `finite units scale` denotes
`units · 10 ^ (-scale)`, together with the IEEE special values. -/
inductive PyFloat where
  | finite (units : Int) (scale : Nat)
  | inf
  | negInf
  | nan
deriving DecidableEq

/-- Numeric reading of a finite `PyFloat` (`0` for the special values,
which is never used on them). -/
def PyFloat.toRat : PyFloat → ℚ
  | .finite m k => (m : ℚ) / (10 : ℚ) ^ k
  | _ => 0

/-- Python truthiness of a float: zero is falsy, every other float
(including `nan` and the infinities) is truthy. -/
def PyFloat.truthy : PyFloat → Bool
  | .finite m _ => decide (m ≠ 0)
  | _ => true

/-- A scalar Python value (an entry of a one-level dictionary). -/
inductive Scalar where
  | sNull
  | sBool (b : Bool)
  | sInt (n : Int)
  | sFloat (f : PyFloat)
  | sStr (s : String)
deriving DecidableEq

/-- A Python value as it occurs in a source document field. -/
inductive Value where
  | vNull
  | vBool (b : Bool)
  | vInt (n : Int)
  | vFloat (f : PyFloat)
  | vStr (s : String)
  | vDict (fields : List (String × Scalar))
deriving DecidableEq

def Scalar.toValue : Scalar → Value
  | .sNull => .vNull
  | .sBool b => .vBool b
  | .sInt n => .vInt n
  | .sFloat f => .vFloat f
  | .sStr s => .vStr s

/-- Python truthiness (`bool(x)`) of a scalar. -/
def Scalar.truthy : Scalar → Bool
  | .sNull => false
  | .sBool b => b
  | .sInt n => decide (n ≠ 0)
  | .sFloat f => f.truthy
  | .sStr s => decide (s ≠ "")

/-- Python truthiness (`bool(x)`) of a value: `None`, `False`, `0`, `""` and
`{}` are falsy, everything else is truthy. -/
def Value.truthy : Value → Bool
  | .vNull => false
  | .vBool b => b
  | .vInt n => decide (n ≠ 0)
  | .vFloat f => f.truthy
  | .vStr s => decide (s ≠ "")
  | .vDict fs => decide (fs ≠ [])

/-- The apostrophe character used by Python `repr` for strings. -/
def quoteChar : String := (Char.ofNat 39).toString

/-- `str(x)` on a float.  The decimal rendering of a finite float is
abstracted (it is never key-relevant in the script). -/
def PyFloat.pyStr : PyFloat → String
  | .finite m 0 => toString m ++ ".0"
  | .finite m k => toString m ++ "e-" ++ toString k
  | .inf => "inf"
  | .negInf => "-inf"
  | .nan => "nan"

/-- `str(x)` on a scalar. -/
def Scalar.pyStr : Scalar → String
  | .sNull => "None"
  | .sBool true => "True"
  | .sBool false => "False"
  | .sInt n => toString n
  | .sFloat f => f.pyStr
  | .sStr s => s

/-- `repr(x)` on a scalar (strings are quoted), used for dictionary display. -/
def Scalar.pyRepr : Scalar → String
  | .sStr s => quoteChar ++ s ++ quoteChar
  | x => x.pyStr

/-- `str(x)` on a value. -/
def Value.pyStr : Value → String
  | .vNull => "None"
  | .vBool true => "True"
  | .vBool false => "False"
  | .vInt n => toString n
  | .vFloat f => f.pyStr
  | .vStr s => s
  | .vDict fs =>
      "\x7b" ++
        String.intercalate ", "
          (fs.map fun e => quoteChar ++ e.1 ++ quoteChar ++ ": " ++ e.2.pyRepr) ++
      "\x7d"

/-- A source document: a mapping from field names to values. -/
def Doc : Type := List (String × Value)

/-- First value bound to key `k`, if any (Python `d[k]` presence). -/
def dictGet (fs : List (String × Scalar)) (k : String) : Option Scalar :=
  (fs.find? fun e => e.1 == k).map (·.2)

/-- `d.get(k)` returning `None` when the key is absent. -/
def Doc.get? (d : Doc) (k : String) : Option Value :=
  (d.find? fun e => e.1 == k).map (·.2)

/-- `d.get(k, dflt)`. -/
def Doc.getD (d : Doc) (k : String) (dflt : Value) : Value :=
  (d.get? k).getD dflt

/-- Python `a or b`. -/
def pyOr (a b : Value) : Value := if a.truthy then a else b

deriving instance DecidableEq for Except

/-- ASCII whitespace stripped by `float(str)`/`int(str)`. -/
def isPySpace (c : Char) : Bool :=
  c = ' ' ∨ c = '\t' ∨ c = '\n' ∨ c = '\r' ∨ c = '\x0b' ∨ c = '\x0c'

/-- `str.strip()` on a character list. -/
def trimChars (cs : List Char) : List Char :=
  ((cs.dropWhile isPySpace).reverse.dropWhile isPySpace).reverse

/-- Value of a digit character. -/
def digitVal (c : Char) : Nat := c.toNat - 48

/-- Value of a list of digit characters read in base 10. -/
def digitsVal (cs : List Char) : Nat :=
  cs.foldl (fun a c => 10 * a + digitVal c) 0

/-- Split an optional leading sign off a character list, returning `1` or
`-1` together with the rest. -/
def splitSign : List Char → Int × List Char
  | c :: rest =>
      if c = '+' then (1, rest)
      else if c = '-' then (-1, rest)
      else (1, c :: rest)
  | [] => (1, [])

/-- Build the float `m · 10 ^ (-k)` where `k` may be negative. -/
def mkFin (m : Int) (k : Int) : PyFloat :=
  if k ≤ 0 then .finite (m * (10 : Int) ^ (-k).toNat) 0
  else .finite m k.toNat

/-- Model of CPython `float(s)` on a string: optional sign, the literals
`inf`/`infinity`/`nan` (case-insensitive), or a decimal literal with
optional fraction and exponent; `none` models `ValueError`. -/
def pyFloatParse (s : String) : Option PyFloat :=
  let cs := trimChars s.toList
  let sc := splitSign cs
  let low := String.mk (sc.2.map Char.toLower)
  if low = "inf" ∨ low = "infinity" then
    some (if sc.1 = 1 then .inf else .negInf)
  else if low = "nan" then some .nan
  else
    let ip := sc.2.takeWhile Char.isDigit
    let cs1 := sc.2.dropWhile Char.isDigit
    let fr : List Char × List Char :=
      match cs1 with
      | c :: rest =>
          if c = '.' then (rest.takeWhile Char.isDigit, rest.dropWhile Char.isDigit)
          else ([], cs1)
      | [] => ([], [])
    let ex : Bool × Int × List Char × List Char :=
      match fr.2 with
      | c :: rest =>
          if c = 'e' ∨ c = 'E' then
            let se := splitSign rest
            (true, se.1, se.2.takeWhile Char.isDigit, se.2.dropWhile Char.isDigit)
          else (false, 1, [], fr.2)
      | [] => (false, 1, [], [])
    if ip = [] ∧ fr.1 = [] then none
    else if ex.1 ∧ ex.2.2.1 = [] then none
    else if ex.2.2.2 ≠ [] then none
    else
      let mant : Int := (digitsVal ip * 10 ^ fr.1.length + digitsVal fr.1 : Nat)
      let e : Int := if ex.1 then ex.2.1 * (digitsVal ex.2.2.1 : Int) else 0
      some (mkFin (sc.1 * mant) ((fr.1.length : Int) - e))

/-- Model of CPython `int(s)` on a string: optional sign and a nonempty
run of digits; `none` models `ValueError`. -/
def pyIntParse (s : String) : Option Int :=
  let cs := trimChars s.toList
  let sc := splitSign cs
  if sc.2 ≠ [] ∧ sc.2.all Char.isDigit then some (sc.1 * (digitsVal sc.2 : Nat))
  else none

/-- Integer division of `m` by `10 ^ k` truncating toward zero
(CPython `int(float)` truncation). -/
def truncDiv (m : Int) (d : Nat) : Int :=
  if 0 ≤ m then ((m.toNat / d : Nat) : Int) else -(((-m).toNat / d : Nat) : Int)

/-- Model of CPython `float(x)` on a value; `.error` models the raised
exception. -/
def pyFloatFn : Value → Except String PyFloat
  | .vBool b => .ok (.finite (if b then 1 else 0) 0)
  | .vInt n => .ok (.finite n 0)
  | .vFloat f => .ok f
  | .vStr s =>
      match pyFloatParse s with
      | some f => .ok f
      | none => .error "ValueError: could not convert string to float"
  | .vNull => .error "TypeError: float() argument must be a string or a real number"
  | .vDict _ => .error "TypeError: float() argument must be a string or a real number"

/-- Model of CPython `int(x)` on a value; `.error` models the raised
exception. -/
def pyIntFn : Value → Except String Int
  | .vBool b => .ok (if b then 1 else 0)
  | .vInt n => .ok n
  | .vFloat (.finite m k) => .ok (truncDiv m (10 ^ k))
  | .vFloat .inf => .error "OverflowError: cannot convert float infinity to integer"
  | .vFloat .negInf => .error "OverflowError: cannot convert float infinity to integer"
  | .vFloat .nan => .error "ValueError: cannot convert float NaN to integer"
  | .vStr s =>
      match pyIntParse s with
      | some n => .ok n
      | none => .error "ValueError: invalid literal for int() with base 10"
  | .vNull => .error "TypeError: int() argument must be a string or a number"
  | .vDict _ => .error "TypeError: int() argument must be a string or a number"

/-! ### Date normalization (`parse_date`, lines 196–215)

`datetime.strptime` restricted to the four fixed formats the script tries.
Each `%`-directive is modelled after the regular expression CPython's
`_strptime` compiles for it, and the final `datetime` construction validates
the day against the month length and rejects leap seconds, raising
`ValueError` (modelled as `none`, which the script's loop treats as "try the
next format"). -/

/-- A parsed timestamp (the fields of a `datetime` object). -/
structure TM where
  year : Nat
  month : Nat
  day : Nat
  hour : Nat
  minute : Nat
  second : Nat
  micro : Nat
deriving DecidableEq

/-- One `strptime` directive of the formats used by the script. -/
inductive Directive where
  | dirY
  | dirm
  | dird
  | dirH
  | dirM
  | dirS
  | dirf
  | lit (c : Char)
deriving DecidableEq

/-- `%Y`: exactly four digits. -/
def match4 : List Char → Option (Nat × List Char)
  | a :: b :: c :: d :: rest =>
      if a.isDigit ∧ b.isDigit ∧ c.isDigit ∧ d.isDigit then
        some (digitsVal [a, b, c, d], rest)
      else none
  | _ => none

/-- One- or two-digit numeric directive with value range `[lo, hi]`
(two digits preferred, falling back to one, as the compiled regular
expression alternation does). -/
def match2 (lo hi : Nat) : List Char → Option (Nat × List Char)
  | a :: b :: rest =>
      if a.isDigit then
        if b.isDigit ∧ lo ≤ 10 * digitVal a + digitVal b ∧
            10 * digitVal a + digitVal b ≤ hi then
          some (10 * digitVal a + digitVal b, rest)
        else if lo ≤ digitVal a ∧ digitVal a ≤ hi then
          some (digitVal a, b :: rest)
        else none
      else none
  | [a] =>
      if a.isDigit ∧ lo ≤ digitVal a ∧ digitVal a ≤ hi then some (digitVal a, [])
      else none
  | [] => none

/-- `%f`: one to six digits, scaled to microseconds. -/
def matchMicro (cs : List Char) : Option (Nat × List Char) :=
  let ds := (cs.takeWhile Char.isDigit).take 6
  if ds = [] then none
  else some (digitsVal ds * 10 ^ (6 - ds.length), cs.drop ds.length)

/-- Run a format (a directive list) over the input, requiring it to be
consumed entirely; starts from `strptime`'s defaults (1900-01-01 00:00:00). -/
def runDirs : List Directive → List Char → TM → Option TM
  | [], [], tm => some tm
  | [], _ :: _, _ => none
  | .lit c :: ds, cs, tm =>
      match cs with
      | c2 :: rest => if c2 = c then runDirs ds rest tm else none
      | [] => none
  | .dirY :: ds, cs, tm =>
      match match4 cs with
      | some (v, rest) => runDirs ds rest { tm with year := v }
      | none => none
  | .dirm :: ds, cs, tm =>
      match match2 1 12 cs with
      | some (v, rest) => runDirs ds rest { tm with month := v }
      | none => none
  | .dird :: ds, cs, tm =>
      match match2 1 31 cs with
      | some (v, rest) => runDirs ds rest { tm with day := v }
      | none => none
  | .dirH :: ds, cs, tm =>
      match match2 0 23 cs with
      | some (v, rest) => runDirs ds rest { tm with hour := v }
      | none => none
  | .dirM :: ds, cs, tm =>
      match match2 0 59 cs with
      | some (v, rest) => runDirs ds rest { tm with minute := v }
      | none => none
  | .dirS :: ds, cs, tm =>
      match match2 0 61 cs with
      | some (v, rest) => runDirs ds rest { tm with second := v }
      | none => none
  | .dirf :: ds, cs, tm =>
      match matchMicro cs with
      | some (v, rest) => runDirs ds rest { tm with micro := v }
      | none => none

def isLeap (y : Nat) : Bool :=
  (y % 4 == 0 && y % 100 != 0) || y % 400 == 0

def daysInMonth (y m : Nat) : Nat :=
  if m = 2 then (if isLeap y then 29 else 28)
  else if m = 4 ∨ m = 6 ∨ m = 9 ∨ m = 11 then 30
  else 31

/-- The `datetime(...)` constructor's range checks (year ≥ 1, day within the
month, leap seconds rejected); failure is a `ValueError`. -/
def validTM (tm : TM) : Option TM :=
  if 1 ≤ tm.year ∧ tm.day ≤ daysInMonth tm.year tm.month ∧ tm.second ≤ 59 then
    some tm
  else none

/-- `datetime.strptime(s, fmt)` for the formats below; `none` models
`ValueError`. -/
def strptime (s : String) (fmt : List Directive) : Option TM :=
  match runDirs fmt s.toList ⟨1900, 1, 1, 0, 0, 0, 0⟩ with
  | some tm => validTM tm
  | none => none

/-- `"%Y-%m-%dT%H:%M:%S.%fZ"`. -/
def fmtIsoMicroZ : List Directive :=
  [.dirY, .lit '-', .dirm, .lit '-', .dird, .lit 'T',
   .dirH, .lit ':', .dirM, .lit ':', .dirS, .lit '.', .dirf, .lit 'Z']

/-- `"%Y-%m-%dT%H:%M:%SZ"`. -/
def fmtIsoZ : List Directive :=
  [.dirY, .lit '-', .dirm, .lit '-', .dird, .lit 'T',
   .dirH, .lit ':', .dirM, .lit ':', .dirS, .lit 'Z']

/-- `"%Y-%m-%d %H:%M:%S"`. -/
def fmtSpace : List Directive :=
  [.dirY, .lit '-', .dirm, .lit '-', .dird, .lit ' ',
   .dirH, .lit ':', .dirM, .lit ':', .dirS]

/-- `"%Y-%m-%d"`. -/
def fmtDateOnly : List Directive :=
  [.dirY, .lit '-', .dirm, .lit '-', .dird]

/-- The format list of `parse_date`, in source order. -/
def dateFormats : List (List Directive) :=
  [fmtIsoMicroZ, fmtIsoZ, fmtSpace, fmtDateOnly]

/-- The `for fmt in formats` loop of `parse_date`: first successful format
wins, exhaustion gives `None`. -/
def tryFormats : List (List Directive) → String → Option TM
  | [], _ => none
  | f :: fs, s =>
      match strptime s f with
      | some tm => some tm
      | none => tryFormats fs s

/-- `parse_date` (lines 196–215).  Falsy input returns `None`; a truthy
non-string raises `TypeError` (only `ValueError` is caught by the loop). -/
def parse_date (date_str : Value) : Except String (Option TM) :=
  if ¬ date_str.truthy then .ok none
  else
    match date_str with
    | .vStr s => .ok (tryFormats dateFormats s)
    | _ => .error "TypeError: strptime() argument 1 must be str"

/-- Left-pad a numeral with zeros to width `w`. -/
def padNum (w n : Nat) : String :=
  let s := toString n
  String.mk (List.replicate (w - s.length) '0') ++ s

/-- `datetime.isoformat()`: microseconds are printed only when nonzero. -/
def TM.isoformat (tm : TM) : String :=
  padNum 4 tm.year ++ "-" ++ padNum 2 tm.month ++ "-" ++ padNum 2 tm.day ++ "T" ++
  padNum 2 tm.hour ++ ":" ++ padNum 2 tm.minute ++ ":" ++ padNum 2 tm.second ++
  (if tm.micro = 0 then "" else "." ++ padNum 6 tm.micro)

/-! ### Field normalization inside `create_market_node` (lines 218–302) -/

/-- Identifier resolution (lines 223–231): prefer a truthy `id`; otherwise
use `_id`, extracting `$oid` from a dict, keeping a plain string, and
otherwise coercing a truthy value with `str(...)` (falsy gives `""`). -/
def resolveMarketId (d : Doc) : Value :=
  let market_id := d.getD "id" (.vStr "")
  if market_id.truthy then market_id
  else
    let i := d.getD "_id" (.vStr "")
    match i with
    | .vDict fs =>
        match dictGet fs "$oid" with
        | some p => p.toValue
        | none => if i.truthy then .vStr i.pyStr else .vStr ""
    | .vStr s => .vStr s
    | _ => if i.truthy then .vStr i.pyStr else .vStr ""

/-- Numeric unboxing of `volume` (lines 236–249): a dict carrying
`$numberDouble` is unboxed, mapping the literals `Infinity`, `-Infinity`
and `NaN` to the float special values, otherwise calling `float` on the
payload and defaulting to `0` when that raises `ValueError`/`TypeError`. -/
def unboxVolume (d : Doc) : Value :=
  let volume := d.getD "volume" (.vInt 0)
  match volume with
  | .vDict fs =>
      match dictGet fs "$numberDouble" with
      | some vs =>
          if vs = .sStr "Infinity" then .vFloat .inf
          else if vs = .sStr "-Infinity" then .vFloat .negInf
          else if vs = .sStr "NaN" then .vFloat .nan
          else
            match pyFloatFn vs.toValue with
            | .ok f => .vFloat f
            | .error _ => .vInt 0
      | none => volume
  | _ => volume

/-- `createdAt or creationDate` (line 260). -/
def createdAtRaw (d : Doc) : Value :=
  pyOr (d.getD "createdAt" .vNull) (d.getD "creationDate" .vNull)

/-- `float(volume) if volume else 0.0` (line 290); raises when `float`
does. -/
def volumeProp (v : Value) : Except String PyFloat :=
  if v.truthy then pyFloatFn v else .ok (.finite 0 0)

/-- `int(comment_count) if comment_count else 0` (line 291); raises when
`int` does. -/
def commentProp (v : Value) : Except String Int :=
  if v.truthy then pyIntFn v else .ok 0

/-- The non-key properties `SET` on a Market node (lines 264–300). -/
structure MarketProps where
  title : Value
  description : Value
  slug : Value
  ticker : Value
  volume : PyFloat
  commentCount : Int
  image : Value
  icon : Value
  resolutionSource : Value
  publishedAt : Value
  updatedAt : Value
  startDate : Option String
  endDate : Option String
  createdAt : Option String
  closedTime : Option String
deriving DecidableEq

/-- The pure data preparation of `create_market_node` (lines 221–300):
everything computed before and at the `session.run` call, in the source's
evaluation order (the date parses at lines 258–261 run before the
`float`/`int` coercions in the call's arguments at lines 290–291). -/
def normalizeMarket (d : Doc) : Except String (Value × MarketProps) :=
  match parse_date (d.getD "startDate" .vNull) with
  | .error e => .error e
  | .ok start_date =>
    match parse_date (d.getD "endDate" .vNull) with
    | .error e => .error e
    | .ok end_date =>
      match parse_date (createdAtRaw d) with
      | .error e => .error e
      | .ok created_at =>
        match parse_date (d.getD "closedTime" .vNull) with
        | .error e => .error e
        | .ok closed_time =>
          match volumeProp (unboxVolume d) with
          | .error e => .error e
          | .ok vol =>
            match commentProp (d.getD "commentCount" (.vInt 0)) with
            | .error e => .error e
            | .ok cc =>
              .ok (resolveMarketId d,
                { title := d.getD "title" (.vStr "")
                  description := d.getD "description" (.vStr "")
                  slug := d.getD "slug" (.vStr "")
                  ticker := d.getD "ticker" (.vStr "")
                  volume := vol
                  commentCount := cc
                  image := d.getD "image" (.vStr "")
                  icon := d.getD "icon" (.vStr "")
                  resolutionSource := d.getD "resolutionSource" (.vStr "")
                  publishedAt := d.getD "published_at" (.vStr "")
                  updatedAt := d.getD "updatedAt" (.vStr "")
                  startDate := start_date.map TM.isoformat
                  endDate := end_date.map TM.isoformat
                  createdAt := created_at.map TM.isoformat
                  closedTime := closed_time.map TM.isoformat })

/-! ### The graph store and the writer operations -/

/-- The Neo4j graph: node identity is the key property (`Market.id`,
`Category.name`, `Series.slug`), relationships are key pairs. -/
structure Graph where
  markets : List (Value × MarketProps)
  categories : List Value
  series : List Value
  belongsTo : List (Value × Value)
  inSeries : List (Value × Value)
deriving DecidableEq

def Graph.empty : Graph := ⟨[], [], [], [], []⟩

/-- A Market node with key `k` exists. -/
def Graph.hasMarket (g : Graph) (k : Value) : Prop :=
  ∃ e ∈ g.markets, e.1 = k

instance (g : Graph) (k : Value) : Decidable (g.hasMarket k) :=
  List.decidableBEx _ g.markets

/-- `SET` of all non-key properties on every node matching the key. -/
def upsertProps (l : List (Value × MarketProps)) (id : Value) (p : MarketProps) :
    List (Value × MarketProps) :=
  l.map fun e => if e.1 = id then (id, p) else e

/-- `MERGE (m:Market {id: $id}) SET m.… = …` (lines 264–282): match the node
by key, creating it when absent, then overwrite the non-key properties. -/
def mergeMarket (g : Graph) (id : Value) (p : MarketProps) : Graph :=
  if g.hasMarket id then { g with markets := upsertProps g.markets id p }
  else { g with markets := g.markets ++ [(id, p)] }

/-- `create_market_node` (lines 218–302): prepare the data, run the
`MERGE`/`SET` query, and return the resolved key.  `.error` models an
exception escaping to the caller (the graph is untouched: the exception
sites all precede the query execution). -/
def create_market_node (g : Graph) (market_data : Doc) :
    Except String (Graph × Value) :=
  match normalizeMarket market_data with
  | .error e => .error e
  | .ok (market_id, p) => .ok (mergeMarket g market_id p, market_id)

/-- `MERGE (c:Category {name: $categoryName})`. -/
def mergeCategoryNode (g : Graph) (c : Value) : Graph :=
  if c ∈ g.categories then g else { g with categories := g.categories ++ [c] }

/-- `MERGE (m)-[:BELONGS_TO]->(c)`. -/
def mergeBelongsTo (g : Graph) (m c : Value) : Graph :=
  if (m, c) ∈ g.belongsTo then g
  else { g with belongsTo := g.belongsTo ++ [(m, c)] }

/-- `MERGE (s:Series {slug: $seriesSlug})`. -/
def mergeSeriesNode (g : Graph) (s : Value) : Graph :=
  if s ∈ g.series then g else { g with series := g.series ++ [s] }

/-- `MERGE (m)-[:IN_SERIES]->(s)`. -/
def mergeInSeries (g : Graph) (m s : Value) : Graph :=
  if (m, s) ∈ g.inSeries then g
  else { g with inSeries := g.inSeries ++ [(m, s)] }

/-- `create_category_relationship` (lines 305–316): no-op on a falsy name;
otherwise `MATCH` the Market (no matching row means the `MERGE` clauses
never run), `MERGE` the Category node by name and `MERGE` the `BELONGS_TO`
edge. -/
def create_category_relationship (g : Graph) (market_id category_name : Value) :
    Graph :=
  if ¬ category_name.truthy then g
  else if g.hasMarket market_id then
    mergeBelongsTo (mergeCategoryNode g category_name) market_id category_name
  else g

/-- `create_series_relationship` (lines 319–330): same shape for the Series
node and the `IN_SERIES` edge. -/
def create_series_relationship (g : Graph) (market_id series_slug : Value) :
    Graph :=
  if ¬ series_slug.truthy then g
  else if g.hasMarket market_id then
    mergeInSeries (mergeSeriesNode g series_slug) market_id series_slug
  else g

/-! ### Batch coordinator (`import_markets_to_neo4j`, lines 333–451) -/

/-- The running counters of the import. -/
structure Stats where
  processed : Nat
  markets_created : Nat
  categories_created : Nat
  series_created : Nat
deriving DecidableEq

def Stats.zero : Stats := ⟨0, 0, 0, 0⟩

/-- `if category: create_category_relationship(...)` (lines 380–382). -/
def linkCategoryPhase (g1 : Graph) (market_id : Value) (d : Doc) : Graph :=
  if (d.getD "category" .vNull).truthy then
    create_category_relationship g1 market_id (d.getD "category" .vNull)
  else g1

/-- `if series_slug: create_series_relationship(...)` (lines 386–388). -/
def linkSeriesPhase (g2 : Graph) (market_id : Value) (d : Doc) : Graph :=
  if (d.getD "seriesSlug" .vNull).truthy then
    create_series_relationship g2 market_id (d.getD "seriesSlug" .vNull)
  else g2

/-- Both conditional link calls, in order. -/
def linkPhase (g1 : Graph) (market_id : Value) (d : Doc) : Graph :=
  linkSeriesPhase (linkCategoryPhase g1 market_id d) market_id d

/-- Graph effect of the per-document body (lines 373–395 / 402–420): create
the Market node, then conditionally link Category and Series; an exception
is caught and the document skipped with the graph unchanged. -/
def processGraph (g : Graph) (d : Doc) : Graph :=
  match create_market_node g d with
  | .error _ => g
  | .ok (g1, market_id) => linkPhase g1 market_id d

/-- Counter effect of the per-document body: a skipped document increments
nothing; otherwise the created/linked counters and `processed` grow. -/
def processStats (st : Stats) (d : Doc) : Stats :=
  match normalizeMarket d with
  | .error _ => st
  | .ok _ =>
      { processed := st.processed + 1
        markets_created := st.markets_created + 1
        categories_created :=
          st.categories_created + (if (d.getD "category" .vNull).truthy then 1 else 0)
        series_created :=
          st.series_created + (if (d.getD "seriesSlug" .vNull).truthy then 1 else 0) }

/-- One document through the pipeline. -/
def importStep (gs : Graph × Stats) (d : Doc) : Graph × Stats :=
  (processGraph gs.1 d, processStats gs.2 d)

/-- A batch is processed document by document, in order. -/
def processBatch (gs : Graph × Stats) (batch : List Doc) : Graph × Stats :=
  batch.foldl importStep gs

/-- The cursor loop (lines 365–420): accumulate documents into `batch`,
flush it whenever it reaches `batch_size`, and process the remainder at the
end. -/
def importLoop (batch_size : Nat) :
    Graph × Stats → List Doc → List Doc → Graph × Stats
  | gs, batch, [] => processBatch gs batch
  | gs, batch, doc :: rest =>
      if batch_size ≤ (batch ++ [doc]).length then
        importLoop batch_size (processBatch gs (batch ++ [doc])) [] rest
      else importLoop batch_size gs (batch ++ [doc]) rest

/-- `import_markets_to_neo4j` restricted to its graph/counter effect. -/
def import_markets_to_neo4j (g : Graph) (st : Stats) (docs : List Doc)
    (batch_size : Nat) : Graph × Stats :=
  importLoop batch_size (g, st) [] docs

/-! ### Connection management and the orchestrator (`main`) -/

/-- `connect_mongodb` (lines 80–102): a single connection attempt, returning
`None` on failure — there is no retry loop here.  `avail n` tells whether
the store would accept attempt number `n`. -/
def connect_mongodb (avail : Nat → Bool) : Option Nat :=
  if avail 1 then some 1 else none

/-- The `for attempt in range(1, max_retries + 1)` loop of `connect_neo4j`
(lines 113–133): on failure before the last attempt, sleep `retry_delay`
seconds and retry.  Returns the successful attempt number (or `none`) and
the total seconds slept. -/
def connectTry (avail : Nat → Bool) (retry_delay : Nat) :
    Nat → Nat → Nat → Option Nat × Nat
  | _, 0, slept => (none, slept)
  | attempt, fuel + 1, slept =>
      if avail attempt then (some attempt, slept)
      else if fuel = 0 then (none, slept)
      else connectTry avail retry_delay (attempt + 1) fuel (slept + retry_delay)

/-- `connect_neo4j` (lines 105–133) with its default bounds
`max_retries=30`, `retry_delay=2` supplied by the caller. -/
def connect_neo4j (avail : Nat → Bool) (max_retries retry_delay : Nat) :
    Option Nat × Nat :=
  connectTry avail retry_delay 1 max_retries 0

/-- Required configuration names (lines 44–50). -/
def required_vars : List String :=
  ["MONGO_URI", "DB2", "NEO4J_URI", "NEO4J_USER", "NEO4J_PASSWORD"]

/-- `check_environment_variables` (lines 42–77): every required variable
must be present and non-empty. -/
def check_environment_variables (env : String → Option String) : Bool :=
  required_vars.all fun v =>
    match env v with
    | some s => s != ""
    | none => false

/-- Total node count, as `MATCH (n) RETURN count(n)` sees it. -/
def Graph.nodeCount (g : Graph) : Nat :=
  g.markets.length + g.categories.length + g.series.length

/-- `clear_neo4j_graph` (lines 136–163): on a non-empty store, auto-clear in
Docker mode; otherwise clear only on an explicit `y`, and keep the data when
the answer is `n` or input is unavailable (`EOFError`). -/
def clear_neo4j_graph (g : Graph) (auto_clear : Bool) (choice : Option Bool) :
    Graph :=
  if 0 < g.nodeCount then
    if auto_clear then Graph.empty
    else
      match choice with
      | some true => Graph.empty
      | some false => g
      | none => g
  else g

/-- `main` (lines 454–495): environment check, the two connections, the
optional clear, then the import.  The result is the process exit code
together with the final graph and counters (aborts leave `g0` untouched —
nothing is bootstrapped or imported). -/
def mainRun (env : String → Option String) (mongoAvail neoAvail : Nat → Bool)
    (is_docker : Bool) (choice : Option Bool) (g0 : Graph) (docs : List Doc) :
    Int × Graph × Stats :=
  if ¬ check_environment_variables env then (1, g0, Stats.zero)
  else
    match connect_mongodb mongoAvail with
    | none => (1, g0, Stats.zero)
    | some _ =>
        match (connect_neo4j neoAvail 30 2).1 with
        | none => (1, g0, Stats.zero)
        | some _ =>
            let g1 := clear_neo4j_graph g0 is_docker choice
            let r := import_markets_to_neo4j g1 Stats.zero docs 100
            (0, r.1, r.2)

/-! ### Helper lemmas: the writer operations -/

/-- The five node/relationship counts the final statistics report. -/
def Graph.counts (g : Graph) : Nat × Nat × Nat × Nat × Nat :=
  (g.markets.length, g.categories.length, g.series.length,
   g.belongsTo.length, g.inSeries.length)

theorem map_id_of_mem {α : Type} {l : List α} {f : α → α}
    (h : ∀ e ∈ l, f e = e) : l.map f = l := by
  induction l with
  | nil => rfl
  | cons a t ih =>
      simp only [List.map_cons, h a (List.mem_cons_self a t)]
      exact congrArg _ (ih fun e he => h e (List.mem_cons_of_mem a he))

theorem upsertProps_key {l : List (Value × MarketProps)} {id : Value}
    {p : MarketProps} : ∀ e ∈ upsertProps l id p, e.1 = id → e = (id, p) := by
  intro e he h1
  obtain ⟨a, ha, rfl⟩ := List.mem_map.mp he
  by_cases h : a.1 = id
  · simp [h]
  · simp only [if_neg h] at h1 ⊢
    exact absurd h1 h

theorem mergeMarket_markets_key {g : Graph} {id : Value} {p : MarketProps} :
    ∀ e ∈ (mergeMarket g id p).markets, e.1 = id → e = (id, p) := by
  intro e he h1
  unfold mergeMarket at he
  split at he
  · exact upsertProps_key e he h1
  · next hno =>
      rcases List.mem_append.mp he with h | h
      · exact absurd ⟨e, h, h1⟩ hno
      · simpa using h

theorem mergeMarket_hasMarket_self (g : Graph) (id : Value) (p : MarketProps) :
    (mergeMarket g id p).hasMarket id := by
  unfold mergeMarket
  split
  · next hyes =>
      obtain ⟨e, he, h1⟩ := hyes
      exact ⟨(id, p), List.mem_map.mpr ⟨e, he, by simp [h1]⟩, rfl⟩
  · exact ⟨(id, p), List.mem_append.mpr (Or.inr (List.mem_singleton.mpr rfl)), rfl⟩

theorem mergeMarket_hasMarket_mono {g : Graph} {k : Value} (id : Value)
    (p : MarketProps) (h : g.hasMarket k) : (mergeMarket g id p).hasMarket k := by
  obtain ⟨e, he, h1⟩ := h
  unfold mergeMarket
  split
  · by_cases hid : e.1 = id
    · exact ⟨(id, p), List.mem_map.mpr ⟨e, he, by simp [hid]⟩, by simp [← h1, hid]⟩
    · exact ⟨e, List.mem_map.mpr ⟨e, he, by simp [hid]⟩, h1⟩
  · exact ⟨e, List.mem_append.mpr (Or.inl he), h1⟩

theorem mergeMarket_categories (g : Graph) (id : Value) (p : MarketProps) :
    (mergeMarket g id p).categories = g.categories := by
  unfold mergeMarket; split <;> rfl

theorem mergeMarket_series (g : Graph) (id : Value) (p : MarketProps) :
    (mergeMarket g id p).series = g.series := by
  unfold mergeMarket; split <;> rfl

theorem mergeMarket_belongsTo (g : Graph) (id : Value) (p : MarketProps) :
    (mergeMarket g id p).belongsTo = g.belongsTo := by
  unfold mergeMarket; split <;> rfl

theorem mergeMarket_inSeries (g : Graph) (id : Value) (p : MarketProps) :
    (mergeMarket g id p).inSeries = g.inSeries := by
  unfold mergeMarket; split <;> rfl

theorem mergeMarket_length_of_hasMarket {g : Graph} {id : Value}
    (p : MarketProps) (h : g.hasMarket id) :
    (mergeMarket g id p).markets.length = g.markets.length := by
  unfold mergeMarket
  rw [if_pos h]
  exact List.length_map _ _

theorem mergeMarket_idem (g : Graph) (id : Value) (p : MarketProps) :
    mergeMarket (mergeMarket g id p) id p = mergeMarket g id p := by
  have hkey := mergeMarket_hasMarket_self g id p
  have hall := @mergeMarket_markets_key g id p
  set g' := mergeMarket g id p with hg'
  unfold mergeMarket
  rw [if_pos hkey]
  have hup : upsertProps g'.markets id p = g'.markets := by
    apply map_id_of_mem
    intro e he
    by_cases h : e.1 = id
    · rw [if_pos h, hall e he h]
    · rw [if_neg h]
  rw [hup]

theorem mergeCategoryNode_markets (g : Graph) (c : Value) :
    (mergeCategoryNode g c).markets = g.markets := by
  unfold mergeCategoryNode; split <;> rfl

theorem mergeCategoryNode_series (g : Graph) (c : Value) :
    (mergeCategoryNode g c).series = g.series := by
  unfold mergeCategoryNode; split <;> rfl

theorem mergeCategoryNode_belongsTo (g : Graph) (c : Value) :
    (mergeCategoryNode g c).belongsTo = g.belongsTo := by
  unfold mergeCategoryNode; split <;> rfl

theorem mergeCategoryNode_inSeries (g : Graph) (c : Value) :
    (mergeCategoryNode g c).inSeries = g.inSeries := by
  unfold mergeCategoryNode; split <;> rfl

theorem mergeCategoryNode_mem_mono {g : Graph} {x : Value} (c : Value)
    (h : x ∈ g.categories) : x ∈ (mergeCategoryNode g c).categories := by
  unfold mergeCategoryNode
  split
  · exact h
  · exact List.mem_append.mpr (Or.inl h)

theorem mergeCategoryNode_mem_self (g : Graph) (c : Value) :
    c ∈ (mergeCategoryNode g c).categories := by
  unfold mergeCategoryNode
  split
  · assumption
  · simp

theorem mergeCategoryNode_noop {g : Graph} {c : Value} (h : c ∈ g.categories) :
    mergeCategoryNode g c = g := by
  unfold mergeCategoryNode
  rw [if_pos h]

theorem mergeBelongsTo_markets (g : Graph) (m c : Value) :
    (mergeBelongsTo g m c).markets = g.markets := by
  unfold mergeBelongsTo; split <;> rfl

theorem mergeBelongsTo_categories (g : Graph) (m c : Value) :
    (mergeBelongsTo g m c).categories = g.categories := by
  unfold mergeBelongsTo; split <;> rfl

theorem mergeBelongsTo_series (g : Graph) (m c : Value) :
    (mergeBelongsTo g m c).series = g.series := by
  unfold mergeBelongsTo; split <;> rfl

theorem mergeBelongsTo_inSeries (g : Graph) (m c : Value) :
    (mergeBelongsTo g m c).inSeries = g.inSeries := by
  unfold mergeBelongsTo; split <;> rfl

theorem mergeBelongsTo_mem_mono {g : Graph} {x : Value × Value} (m c : Value)
    (h : x ∈ g.belongsTo) : x ∈ (mergeBelongsTo g m c).belongsTo := by
  unfold mergeBelongsTo
  split
  · exact h
  · exact List.mem_append.mpr (Or.inl h)

theorem mergeBelongsTo_mem_self (g : Graph) (m c : Value) :
    (m, c) ∈ (mergeBelongsTo g m c).belongsTo := by
  unfold mergeBelongsTo
  split
  · assumption
  · simp

theorem mergeBelongsTo_noop {g : Graph} {m c : Value}
    (h : (m, c) ∈ g.belongsTo) : mergeBelongsTo g m c = g := by
  unfold mergeBelongsTo
  rw [if_pos h]

theorem mergeSeriesNode_markets (g : Graph) (s : Value) :
    (mergeSeriesNode g s).markets = g.markets := by
  unfold mergeSeriesNode; split <;> rfl

theorem mergeSeriesNode_categories (g : Graph) (s : Value) :
    (mergeSeriesNode g s).categories = g.categories := by
  unfold mergeSeriesNode; split <;> rfl

theorem mergeSeriesNode_belongsTo (g : Graph) (s : Value) :
    (mergeSeriesNode g s).belongsTo = g.belongsTo := by
  unfold mergeSeriesNode; split <;> rfl

theorem mergeSeriesNode_inSeries (g : Graph) (s : Value) :
    (mergeSeriesNode g s).inSeries = g.inSeries := by
  unfold mergeSeriesNode; split <;> rfl

theorem mergeSeriesNode_mem_mono {g : Graph} {x : Value} (s : Value)
    (h : x ∈ g.series) : x ∈ (mergeSeriesNode g s).series := by
  unfold mergeSeriesNode
  split
  · exact h
  · exact List.mem_append.mpr (Or.inl h)

theorem mergeSeriesNode_mem_self (g : Graph) (s : Value) :
    s ∈ (mergeSeriesNode g s).series := by
  unfold mergeSeriesNode
  split
  · assumption
  · simp

theorem mergeSeriesNode_noop {g : Graph} {s : Value} (h : s ∈ g.series) :
    mergeSeriesNode g s = g := by
  unfold mergeSeriesNode
  rw [if_pos h]

theorem mergeInSeries_markets (g : Graph) (m s : Value) :
    (mergeInSeries g m s).markets = g.markets := by
  unfold mergeInSeries; split <;> rfl

theorem mergeInSeries_categories (g : Graph) (m s : Value) :
    (mergeInSeries g m s).categories = g.categories := by
  unfold mergeInSeries; split <;> rfl

theorem mergeInSeries_series (g : Graph) (m s : Value) :
    (mergeInSeries g m s).series = g.series := by
  unfold mergeInSeries; split <;> rfl

theorem mergeInSeries_belongsTo (g : Graph) (m s : Value) :
    (mergeInSeries g m s).belongsTo = g.belongsTo := by
  unfold mergeInSeries; split <;> rfl

theorem mergeInSeries_mem_mono {g : Graph} {x : Value × Value} (m s : Value)
    (h : x ∈ g.inSeries) : x ∈ (mergeInSeries g m s).inSeries := by
  unfold mergeInSeries
  split
  · exact h
  · exact List.mem_append.mpr (Or.inl h)

theorem mergeInSeries_mem_self (g : Graph) (m s : Value) :
    (m, s) ∈ (mergeInSeries g m s).inSeries := by
  unfold mergeInSeries
  split
  · assumption
  · simp

theorem mergeInSeries_noop {g : Graph} {m s : Value}
    (h : (m, s) ∈ g.inSeries) : mergeInSeries g m s = g := by
  unfold mergeInSeries
  rw [if_pos h]

/-! ### Helper lemmas: the relationship operations -/

theorem catRel_markets (g : Graph) (m c : Value) :
    (create_category_relationship g m c).markets = g.markets := by
  unfold create_category_relationship
  split
  · rfl
  · split
    · rw [mergeBelongsTo_markets, mergeCategoryNode_markets]
    · rfl

theorem catRel_series (g : Graph) (m c : Value) :
    (create_category_relationship g m c).series = g.series := by
  unfold create_category_relationship
  split
  · rfl
  · split
    · rw [mergeBelongsTo_series, mergeCategoryNode_series]
    · rfl

theorem catRel_inSeries (g : Graph) (m c : Value) :
    (create_category_relationship g m c).inSeries = g.inSeries := by
  unfold create_category_relationship
  split
  · rfl
  · split
    · rw [mergeBelongsTo_inSeries, mergeCategoryNode_inSeries]
    · rfl

theorem catRel_categories_mono {g : Graph} {x : Value} (m c : Value)
    (h : x ∈ g.categories) :
    x ∈ (create_category_relationship g m c).categories := by
  unfold create_category_relationship
  split
  · exact h
  · split
    · rw [mergeBelongsTo_categories]
      exact mergeCategoryNode_mem_mono c h
    · exact h

theorem catRel_belongsTo_mono {g : Graph} {x : Value × Value} (m c : Value)
    (h : x ∈ g.belongsTo) :
    x ∈ (create_category_relationship g m c).belongsTo := by
  unfold create_category_relationship
  split
  · exact h
  · split
    · refine mergeBelongsTo_mem_mono m c ?_
      rw [mergeCategoryNode_belongsTo]
      exact h
    · exact h

theorem catRel_effect {g : Graph} {m c : Value} (hc : c.truthy = true)
    (hm : g.hasMarket m) :
    c ∈ (create_category_relationship g m c).categories ∧
      (m, c) ∈ (create_category_relationship g m c).belongsTo := by
  unfold create_category_relationship
  rw [if_neg (by simp [hc]), if_pos hm]
  constructor
  · rw [mergeBelongsTo_categories]
    exact mergeCategoryNode_mem_self g c
  · exact mergeBelongsTo_mem_self _ m c

theorem catRel_noop_of_mem {g : Graph} {m c : Value}
    (hc : c ∈ g.categories) (he : (m, c) ∈ g.belongsTo) :
    create_category_relationship g m c = g := by
  unfold create_category_relationship
  split
  · rfl
  · split
    · rw [mergeCategoryNode_noop hc, mergeBelongsTo_noop he]
    · rfl

theorem catRel_noop_of_no_market {g : Graph} {m : Value} (c : Value)
    (hm : ¬ g.hasMarket m) : create_category_relationship g m c = g := by
  unfold create_category_relationship
  by_cases hc : ¬ c.truthy
  · rw [if_pos hc]
  · rw [if_neg hc, if_neg hm]

theorem catRel_idem (g : Graph) (m c : Value) :
    create_category_relationship (create_category_relationship g m c) m c =
      create_category_relationship g m c := by
  by_cases hc : c.truthy
  · by_cases hm : g.hasMarket m
    · obtain ⟨h1, h2⟩ := catRel_effect hc hm
      exact catRel_noop_of_mem h1 h2
    · rw [catRel_noop_of_no_market c hm, catRel_noop_of_no_market c hm]
  · unfold create_category_relationship
    rw [if_pos (by simp [hc]), if_pos (by simp [hc])]

theorem seriesRel_markets (g : Graph) (m s : Value) :
    (create_series_relationship g m s).markets = g.markets := by
  unfold create_series_relationship
  split
  · rfl
  · split
    · rw [mergeInSeries_markets, mergeSeriesNode_markets]
    · rfl

theorem seriesRel_categories (g : Graph) (m s : Value) :
    (create_series_relationship g m s).categories = g.categories := by
  unfold create_series_relationship
  split
  · rfl
  · split
    · rw [mergeInSeries_categories, mergeSeriesNode_categories]
    · rfl

theorem seriesRel_belongsTo (g : Graph) (m s : Value) :
    (create_series_relationship g m s).belongsTo = g.belongsTo := by
  unfold create_series_relationship
  split
  · rfl
  · split
    · rw [mergeInSeries_belongsTo, mergeSeriesNode_belongsTo]
    · rfl

theorem seriesRel_series_mono {g : Graph} {x : Value} (m s : Value)
    (h : x ∈ g.series) : x ∈ (create_series_relationship g m s).series := by
  unfold create_series_relationship
  split
  · exact h
  · split
    · rw [mergeInSeries_series]
      exact mergeSeriesNode_mem_mono s h
    · exact h

theorem seriesRel_inSeries_mono {g : Graph} {x : Value × Value} (m s : Value)
    (h : x ∈ g.inSeries) : x ∈ (create_series_relationship g m s).inSeries := by
  unfold create_series_relationship
  split
  · exact h
  · split
    · refine mergeInSeries_mem_mono m s ?_
      rw [mergeSeriesNode_inSeries]
      exact h
    · exact h

theorem seriesRel_effect {g : Graph} {m s : Value} (hs : s.truthy = true)
    (hm : g.hasMarket m) :
    s ∈ (create_series_relationship g m s).series ∧
      (m, s) ∈ (create_series_relationship g m s).inSeries := by
  unfold create_series_relationship
  rw [if_neg (by simp [hs]), if_pos hm]
  constructor
  · rw [mergeInSeries_series]
    exact mergeSeriesNode_mem_self g s
  · exact mergeInSeries_mem_self _ m s

theorem seriesRel_noop_of_mem {g : Graph} {m s : Value}
    (hs : s ∈ g.series) (he : (m, s) ∈ g.inSeries) :
    create_series_relationship g m s = g := by
  unfold create_series_relationship
  split
  · rfl
  · split
    · rw [mergeSeriesNode_noop hs, mergeInSeries_noop he]
    · rfl

theorem seriesRel_noop_of_no_market {g : Graph} {m : Value} (s : Value)
    (hm : ¬ g.hasMarket m) : create_series_relationship g m s = g := by
  unfold create_series_relationship
  by_cases hs2 : ¬ s.truthy
  · rw [if_pos hs2]
  · rw [if_neg hs2, if_neg hm]

theorem seriesRel_idem (g : Graph) (m s : Value) :
    create_series_relationship (create_series_relationship g m s) m s =
      create_series_relationship g m s := by
  by_cases hs : s.truthy
  · by_cases hm : g.hasMarket m
    · obtain ⟨h1, h2⟩ := seriesRel_effect hs hm
      exact seriesRel_noop_of_mem h1 h2
    · rw [seriesRel_noop_of_no_market s hm, seriesRel_noop_of_no_market s hm]
  · unfold create_series_relationship
    rw [if_pos (by simp [hs]), if_pos (by simp [hs])]

/-! ### Helper lemmas: per-document processing and absorption -/

theorem hasMarket_congr {g g' : Graph} (hm : g'.markets = g.markets)
    {k : Value} (h : g.hasMarket k) : g'.hasMarket k := by
  unfold Graph.hasMarket at h ⊢
  rw [hm]
  exact h

theorem linkPhase_markets (g1 : Graph) (mid : Value) (d : Doc) :
    (linkPhase g1 mid d).markets = g1.markets := by
  unfold linkPhase linkSeriesPhase linkCategoryPhase
  split <;> split <;>
    simp only [seriesRel_markets, catRel_markets]

theorem linkPhase_hasMarket_mono {g1 : Graph} {k : Value} (mid : Value)
    (d : Doc) (h : g1.hasMarket k) : (linkPhase g1 mid d).hasMarket k :=
  hasMarket_congr (linkPhase_markets g1 mid d) h

theorem linkCategoryPhase_categories_mono {g1 : Graph} {x : Value}
    (mid : Value) (d : Doc) (h : x ∈ g1.categories) :
    x ∈ (linkCategoryPhase g1 mid d).categories := by
  unfold linkCategoryPhase
  split
  · exact catRel_categories_mono _ _ h
  · exact h

theorem linkCategoryPhase_belongsTo_mono {g1 : Graph} {x : Value × Value}
    (mid : Value) (d : Doc) (h : x ∈ g1.belongsTo) :
    x ∈ (linkCategoryPhase g1 mid d).belongsTo := by
  unfold linkCategoryPhase
  split
  · exact catRel_belongsTo_mono _ _ h
  · exact h

theorem linkSeriesPhase_series_mono {g2 : Graph} {x : Value}
    (mid : Value) (d : Doc) (h : x ∈ g2.series) :
    x ∈ (linkSeriesPhase g2 mid d).series := by
  unfold linkSeriesPhase
  split
  · exact seriesRel_series_mono _ _ h
  · exact h

theorem linkSeriesPhase_inSeries_mono {g2 : Graph} {x : Value × Value}
    (mid : Value) (d : Doc) (h : x ∈ g2.inSeries) :
    x ∈ (linkSeriesPhase g2 mid d).inSeries := by
  unfold linkSeriesPhase
  split
  · exact seriesRel_inSeries_mono _ _ h
  · exact h

theorem linkPhase_categories_mono {g1 : Graph} {x : Value} (mid : Value)
    (d : Doc) (h : x ∈ g1.categories) : x ∈ (linkPhase g1 mid d).categories := by
  unfold linkPhase linkSeriesPhase
  split
  · rw [seriesRel_categories]
    exact linkCategoryPhase_categories_mono mid d h
  · exact linkCategoryPhase_categories_mono mid d h

theorem linkPhase_belongsTo_mono {g1 : Graph} {x : Value × Value} (mid : Value)
    (d : Doc) (h : x ∈ g1.belongsTo) : x ∈ (linkPhase g1 mid d).belongsTo := by
  unfold linkPhase linkSeriesPhase
  split
  · rw [seriesRel_belongsTo]
    exact linkCategoryPhase_belongsTo_mono mid d h
  · exact linkCategoryPhase_belongsTo_mono mid d h

theorem linkPhase_series_mono {g1 : Graph} {x : Value} (mid : Value)
    (d : Doc) (h : x ∈ g1.series) : x ∈ (linkPhase g1 mid d).series := by
  unfold linkPhase
  refine linkSeriesPhase_series_mono mid d ?_
  unfold linkCategoryPhase
  split
  · rw [catRel_series]
    exact h
  · exact h

theorem linkPhase_inSeries_mono {g1 : Graph} {x : Value × Value} (mid : Value)
    (d : Doc) (h : x ∈ g1.inSeries) : x ∈ (linkPhase g1 mid d).inSeries := by
  unfold linkPhase
  refine linkSeriesPhase_inSeries_mono mid d ?_
  unfold linkCategoryPhase
  split
  · rw [catRel_inSeries]
    exact h
  · exact h

theorem linkPhase_noop {g1 : Graph} {mid : Value} {d : Doc}
    (hcat : (d.getD "category" .vNull).truthy = true →
      d.getD "category" .vNull ∈ g1.categories ∧
        (mid, d.getD "category" .vNull) ∈ g1.belongsTo)
    (hser : (d.getD "seriesSlug" .vNull).truthy = true →
      d.getD "seriesSlug" .vNull ∈ g1.series ∧
        (mid, d.getD "seriesSlug" .vNull) ∈ g1.inSeries) :
    linkPhase g1 mid d = g1 := by
  unfold linkPhase
  have hg2 : linkCategoryPhase g1 mid d = g1 := by
    unfold linkCategoryPhase
    by_cases hc : (d.getD "category" .vNull).truthy
    · obtain ⟨h1, h2⟩ := hcat hc
      rw [if_pos hc, catRel_noop_of_mem h1 h2]
    · rw [if_neg hc]
  rw [hg2]
  unfold linkSeriesPhase
  by_cases hs : (d.getD "seriesSlug" .vNull).truthy
  · obtain ⟨h3, h4⟩ := hser hs
    rw [if_pos hs, seriesRel_noop_of_mem h3 h4]
  · rw [if_neg hs]

theorem linkPhase_effect {g1 : Graph} {mid : Value} {d : Doc}
    (hm : g1.hasMarket mid) :
    ((d.getD "category" .vNull).truthy = true →
      d.getD "category" .vNull ∈ (linkPhase g1 mid d).categories ∧
        (mid, d.getD "category" .vNull) ∈ (linkPhase g1 mid d).belongsTo) ∧
    ((d.getD "seriesSlug" .vNull).truthy = true →
      d.getD "seriesSlug" .vNull ∈ (linkPhase g1 mid d).series ∧
        (mid, d.getD "seriesSlug" .vNull) ∈ (linkPhase g1 mid d).inSeries) := by
  constructor
  · intro hc
    have hstep : d.getD "category" .vNull ∈ (linkCategoryPhase g1 mid d).categories ∧
        (mid, d.getD "category" .vNull) ∈ (linkCategoryPhase g1 mid d).belongsTo := by
      unfold linkCategoryPhase
      rw [if_pos hc]
      exact catRel_effect hc hm
    unfold linkPhase
    exact ⟨by
        unfold linkSeriesPhase
        split
        · rw [seriesRel_categories]
          exact hstep.1
        · exact hstep.1,
      by
        unfold linkSeriesPhase
        split
        · rw [seriesRel_belongsTo]
          exact hstep.2
        · exact hstep.2⟩
  · intro hs
    have hm2 : (linkCategoryPhase g1 mid d).hasMarket mid := by
      unfold linkCategoryPhase
      split
      · exact hasMarket_congr (catRel_markets _ _ _) hm
      · exact hm
    unfold linkPhase linkSeriesPhase
    rw [if_pos hs]
    exact seriesRel_effect hs hm2

theorem processGraph_of_error {g : Graph} {d : Doc} {e : String}
    (h : normalizeMarket d = .error e) : processGraph g d = g := by
  unfold processGraph create_market_node
  rw [h]

theorem processGraph_of_ok {g : Graph} {d : Doc} {mid : Value} {p : MarketProps}
    (h : normalizeMarket d = .ok (mid, p)) :
    processGraph g d = linkPhase (mergeMarket g mid p) mid d := by
  unfold processGraph create_market_node
  rw [h]

/-- The graph already contains everything a (successful) document would
write, except possibly the property values on its Market node. -/
def Absorbed (g : Graph) (d : Doc) : Prop :=
  ∀ mid p, normalizeMarket d = .ok (mid, p) →
    g.hasMarket mid ∧
    ((d.getD "category" .vNull).truthy = true →
      d.getD "category" .vNull ∈ g.categories ∧
        (mid, d.getD "category" .vNull) ∈ g.belongsTo) ∧
    ((d.getD "seriesSlug" .vNull).truthy = true →
      d.getD "seriesSlug" .vNull ∈ g.series ∧
        (mid, d.getD "seriesSlug" .vNull) ∈ g.inSeries)

theorem processGraph_absorbed (g : Graph) (d : Doc) :
    Absorbed (processGraph g d) d := by
  intro mid p h
  rw [processGraph_of_ok h]
  have hm : (mergeMarket g mid p).hasMarket mid := mergeMarket_hasMarket_self g mid p
  obtain ⟨h1, h2⟩ := linkPhase_effect (d := d) hm
  exact ⟨linkPhase_hasMarket_mono mid d hm, h1, h2⟩

theorem processGraph_hasMarket_mono {g : Graph} {k : Value} (d : Doc)
    (h : g.hasMarket k) : (processGraph g d).hasMarket k := by
  cases he : normalizeMarket d with
  | error e =>
      rw [processGraph_of_error he]
      exact h
  | ok v =>
      obtain ⟨mid, p⟩ := v
      rw [processGraph_of_ok he]
      exact linkPhase_hasMarket_mono _ _ (mergeMarket_hasMarket_mono _ _ h)

theorem processGraph_categories_mono {g : Graph} {x : Value} (d : Doc)
    (h : x ∈ g.categories) : x ∈ (processGraph g d).categories := by
  cases he : normalizeMarket d with
  | error e =>
      rw [processGraph_of_error he]
      exact h
  | ok v =>
      obtain ⟨mid, p⟩ := v
      rw [processGraph_of_ok he]
      refine linkPhase_categories_mono _ _ ?_
      rw [mergeMarket_categories]
      exact h

theorem processGraph_belongsTo_mono {g : Graph} {x : Value × Value} (d : Doc)
    (h : x ∈ g.belongsTo) : x ∈ (processGraph g d).belongsTo := by
  cases he : normalizeMarket d with
  | error e =>
      rw [processGraph_of_error he]
      exact h
  | ok v =>
      obtain ⟨mid, p⟩ := v
      rw [processGraph_of_ok he]
      refine linkPhase_belongsTo_mono _ _ ?_
      rw [mergeMarket_belongsTo]
      exact h

theorem processGraph_series_mono {g : Graph} {x : Value} (d : Doc)
    (h : x ∈ g.series) : x ∈ (processGraph g d).series := by
  cases he : normalizeMarket d with
  | error e =>
      rw [processGraph_of_error he]
      exact h
  | ok v =>
      obtain ⟨mid, p⟩ := v
      rw [processGraph_of_ok he]
      refine linkPhase_series_mono _ _ ?_
      rw [mergeMarket_series]
      exact h

theorem processGraph_inSeries_mono {g : Graph} {x : Value × Value} (d : Doc)
    (h : x ∈ g.inSeries) : x ∈ (processGraph g d).inSeries := by
  cases he : normalizeMarket d with
  | error e =>
      rw [processGraph_of_error he]
      exact h
  | ok v =>
      obtain ⟨mid, p⟩ := v
      rw [processGraph_of_ok he]
      refine linkPhase_inSeries_mono _ _ ?_
      rw [mergeMarket_inSeries]
      exact h

theorem absorbed_mono {g : Graph} {d' : Doc} (d : Doc)
    (h : Absorbed g d') : Absorbed (processGraph g d) d' := by
  intro mid p hn
  obtain ⟨h1, h2, h3⟩ := h mid p hn
  refine ⟨processGraph_hasMarket_mono d h1, fun hc => ?_, fun hs => ?_⟩
  · exact ⟨processGraph_categories_mono d (h2 hc).1,
      processGraph_belongsTo_mono d (h2 hc).2⟩
  · exact ⟨processGraph_series_mono d (h3 hs).1,
      processGraph_inSeries_mono d (h3 hs).2⟩

theorem mergeMarket_counts_of_hasMarket {g : Graph} {mid : Value}
    (p : MarketProps) (h : g.hasMarket mid) :
    (mergeMarket g mid p).counts = g.counts := by
  unfold Graph.counts
  rw [mergeMarket_length_of_hasMarket p h, mergeMarket_categories,
    mergeMarket_series, mergeMarket_belongsTo, mergeMarket_inSeries]

theorem processGraph_counts_of_absorbed {g : Graph} {d : Doc}
    (h : Absorbed g d) : (processGraph g d).counts = g.counts := by
  cases he : normalizeMarket d with
  | error e => rw [processGraph_of_error he]
  | ok v =>
      obtain ⟨mid, p⟩ := v
      obtain ⟨h1, h2, h3⟩ := h mid p he
      have hcat : (d.getD "category" .vNull).truthy = true →
          d.getD "category" .vNull ∈ (mergeMarket g mid p).categories ∧
            (mid, d.getD "category" .vNull) ∈ (mergeMarket g mid p).belongsTo := by
        intro hc
        rw [mergeMarket_categories, mergeMarket_belongsTo]
        exact h2 hc
      have hser : (d.getD "seriesSlug" .vNull).truthy = true →
          d.getD "seriesSlug" .vNull ∈ (mergeMarket g mid p).series ∧
            (mid, d.getD "seriesSlug" .vNull) ∈ (mergeMarket g mid p).inSeries := by
        intro hs
        rw [mergeMarket_series, mergeMarket_inSeries]
        exact h3 hs
      rw [processGraph_of_ok he, linkPhase_noop hcat hser]
      exact mergeMarket_counts_of_hasMarket p h1

theorem absorbed_foldl_mono {g : Graph} {d : Doc} (l : List Doc)
    (h : Absorbed g d) : Absorbed (l.foldl processGraph g) d := by
  induction l generalizing g with
  | nil => exact h
  | cons a t ih => exact ih (absorbed_mono a h)

theorem absorbed_after_fold (docs : List Doc) :
    ∀ g, ∀ d ∈ docs, Absorbed (docs.foldl processGraph g) d := by
  induction docs with
  | nil =>
      intro g d hd
      cases hd
  | cons a t ih =>
      intro g d hd
      simp only [List.foldl_cons]
      rcases List.mem_cons.mp hd with rfl | hd'
      · exact absorbed_foldl_mono t (processGraph_absorbed g d)
      · exact ih (processGraph g a) d hd'

theorem counts_foldl_of_absorbed (docs : List Doc) :
    ∀ g, (∀ d ∈ docs, Absorbed g d) →
      (docs.foldl processGraph g).counts = g.counts := by
  induction docs with
  | nil =>
      intro g _
      rfl
  | cons a t ih =>
      intro g h
      simp only [List.foldl_cons]
      rw [ih (processGraph g a)
        (fun d hd => absorbed_mono a (h d (List.mem_cons_of_mem a hd)))]
      exact processGraph_counts_of_absorbed (h a (List.mem_cons_self a t))

/-! ### Helper lemmas: the batch loop is a fold over the documents -/

theorem processBatch_eq (l : List Doc) :
    ∀ g st, processBatch (g, st) l =
      (l.foldl processGraph g, l.foldl processStats st) := by
  induction l with
  | nil =>
      intro g st
      rfl
  | cons a t ih =>
      intro g st
      show processBatch (importStep (g, st) a) t = _
      rw [show importStep (g, st) a = (processGraph g a, processStats st a) from rfl,
        ih]
      rfl

theorem importLoop_eq (B : Nat) (rest : List Doc) :
    ∀ batch g st, importLoop B (g, st) batch rest =
      ((batch ++ rest).foldl processGraph g, (batch ++ rest).foldl processStats st) := by
  induction rest with
  | nil =>
      intro batch g st
      simp only [importLoop, List.append_nil]
      exact processBatch_eq batch g st
  | cons a t ih =>
      intro batch g st
      have hsplit : batch ++ a :: t = (batch ++ [a]) ++ t := by simp
      unfold importLoop
      split
      · rw [processBatch_eq (batch ++ [a]) g st, ih []]
        simp only [List.nil_append, hsplit, List.foldl_append]
      · rw [ih (batch ++ [a]) g st, hsplit]

theorem import_eq (g : Graph) (st : Stats) (docs : List Doc) (B : Nat) :
    import_markets_to_neo4j g st docs B =
      (docs.foldl processGraph g, docs.foldl processStats st) := by
  unfold import_markets_to_neo4j
  rw [importLoop_eq B docs [] g st]
  rfl

/-! ### Concrete fixtures used by the claim theorems -/

def docSportsA : Doc := [("id", .vStr "1"), ("category", .vStr "Sports")]

def docSportsB : Doc := [("id", .vStr "2"), ("category", .vStr "Sports")]

/-- Properties of a Market created from a document carrying only an `id`. -/
def propsBare : MarketProps :=
  ⟨.vStr "", .vStr "", .vStr "", .vStr "", .finite 0 0, 0, .vStr "", .vStr "",
   .vStr "", .vStr "", .vStr "", none, none, none, none⟩

/-- A one-market graph used to instantiate hypotheses about existing nodes. -/
def gOneMarket : Graph := mergeMarket Graph.empty (.vStr "m1") propsBare

/-! ### Claim theorems -/

/-- C1: running the full import twice over the same document sequence leaves
all node and relationship counts identical to the first run's; moreover the
three writer operations are individually idempotent: repeating `mergeMarket`
(the `MERGE`/`SET` of `create_market_node`) with identical arguments
matches the node by key and creates no second node, and repeating either
link call creates no duplicate node or edge. -/
theorem import_twice_same_counts :
    (∀ (g : Graph) (st st' : Stats) (docs : List Doc),
      (import_markets_to_neo4j
          (import_markets_to_neo4j g st docs 100).1 st' docs 100).1.counts =
        (import_markets_to_neo4j g st docs 100).1.counts) ∧
    (∀ (g : Graph) (id : Value) (p : MarketProps),
      mergeMarket (mergeMarket g id p) id p = mergeMarket g id p) ∧
    (∀ (g : Graph) (m c : Value),
      create_category_relationship (create_category_relationship g m c) m c =
        create_category_relationship g m c) ∧
    (∀ (g : Graph) (m s : Value),
      create_series_relationship (create_series_relationship g m s) m s =
        create_series_relationship g m s) := by
  refine ⟨?_, mergeMarket_idem, catRel_idem, seriesRel_idem⟩
  intro g st st' docs
  simp only [import_eq]
  exact counts_foldl_of_absorbed docs _ (absorbed_after_fold docs g)

/-- C9: calling either link operation with a truthy name/slug whose
`primaryKey` matches no existing Market node leaves the graph entirely
unchanged — the `MATCH` on the Market precedes the `MERGE` clauses, so
neither the target node nor the edge is created, and no error is raised. -/
theorem link_missing_market_noop (g : Graph) (m c s : Value)
    (hc : c.truthy = true) (hs : s.truthy = true) (hm : ¬ g.hasMarket m) :
    create_category_relationship g m c = g ∧
      create_series_relationship g m s = g :=
  ⟨catRel_noop_of_no_market c hm, seriesRel_noop_of_no_market s hm⟩

theorem link_missing_market_noop_witness :
    (Value.vStr "Sports").truthy = true ∧ (Value.vStr "nba").truthy = true ∧
      ¬ Graph.empty.hasMarket (.vStr "m1") ∧
      (create_category_relationship Graph.empty (.vStr "m1") (.vStr "Sports") =
          Graph.empty ∧
        create_series_relationship Graph.empty (.vStr "m1") (.vStr "nba") =
          Graph.empty) :=
  ⟨by decide, by decide, by decide,
    link_missing_market_noop Graph.empty (.vStr "m1") (.vStr "Sports")
      (.vStr "nba") (by decide) (by decide) (by decide)⟩

/-- C7: `create_category_relationship`/`create_series_relationship` are
no-ops when the name/slug argument is empty (falsy); otherwise, when the
Market exists, they match-or-create the target node by its key and then
match-or-create the edge; two documents both specifying category `"Sports"`
produce exactly one shared Category node and two `BELONGS_TO`
relationships; and a repeated call with identical arguments produces no
duplicate node or edge. -/
theorem link_ops_merge_semantics :
    (∀ (g : Graph) (m c : Value), c.truthy = false →
      create_category_relationship g m c = g) ∧
    (∀ (g : Graph) (m s : Value), s.truthy = false →
      create_series_relationship g m s = g) ∧
    (∀ (g : Graph) (m c : Value), c.truthy = true → g.hasMarket m →
      c ∈ (create_category_relationship g m c).categories ∧
        (m, c) ∈ (create_category_relationship g m c).belongsTo) ∧
    (∀ (g : Graph) (m s : Value), s.truthy = true → g.hasMarket m →
      s ∈ (create_series_relationship g m s).series ∧
        (m, s) ∈ (create_series_relationship g m s).inSeries) ∧
    ((import_markets_to_neo4j Graph.empty Stats.zero [docSportsA, docSportsB]
        100).1.categories = [.vStr "Sports"] ∧
      (import_markets_to_neo4j Graph.empty Stats.zero [docSportsA, docSportsB]
        100).1.belongsTo.length = 2) ∧
    (∀ (g : Graph) (m c : Value),
      create_category_relationship (create_category_relationship g m c) m c =
        create_category_relationship g m c) ∧
    (∀ (g : Graph) (m s : Value),
      create_series_relationship (create_series_relationship g m s) m s =
        create_series_relationship g m s) := by
  refine ⟨?_, ?_, ?_, ?_, ⟨by decide, by decide⟩, catRel_idem, seriesRel_idem⟩
  · intro g m c hc
    unfold create_category_relationship
    rw [if_pos (by simp [hc])]
  · intro g m s hs
    unfold create_series_relationship
    rw [if_pos (by simp [hs])]
  · intro g m c hc hm
    exact catRel_effect hc hm
  · intro g m s hs hm
    exact seriesRel_effect hs hm

theorem link_ops_merge_semantics_witness :
    ((Value.vStr "").truthy = false ∧
      create_category_relationship gOneMarket (.vStr "m1") (.vStr "") =
        gOneMarket) ∧
    ((Value.vStr "").truthy = false ∧
      create_series_relationship gOneMarket (.vStr "m1") (.vStr "") =
        gOneMarket) ∧
    ((Value.vStr "Sports").truthy = true ∧ gOneMarket.hasMarket (.vStr "m1") ∧
      (Value.vStr "Sports" ∈
          (create_category_relationship gOneMarket (.vStr "m1")
            (.vStr "Sports")).categories ∧
        (Value.vStr "m1", Value.vStr "Sports") ∈
          (create_category_relationship gOneMarket (.vStr "m1")
            (.vStr "Sports")).belongsTo)) ∧
    ((Value.vStr "nba").truthy = true ∧ gOneMarket.hasMarket (.vStr "m1") ∧
      (Value.vStr "nba" ∈
          (create_series_relationship gOneMarket (.vStr "m1")
            (.vStr "nba")).series ∧
        (Value.vStr "m1", Value.vStr "nba") ∈
          (create_series_relationship gOneMarket (.vStr "m1")
            (.vStr "nba")).inSeries)) :=
  ⟨⟨by decide,
      link_ops_merge_semantics.1 gOneMarket (.vStr "m1") (.vStr "") (by decide)⟩,
    ⟨by decide,
      link_ops_merge_semantics.2.1 gOneMarket (.vStr "m1") (.vStr "")
        (by decide)⟩,
    ⟨by decide, by decide,
      link_ops_merge_semantics.2.2.1 gOneMarket (.vStr "m1") (.vStr "Sports")
        (by decide) (by decide)⟩,
    ⟨by decide, by decide,
      link_ops_merge_semantics.2.2.2.1 gOneMarket (.vStr "m1") (.vStr "nba")
        (by decide) (by decide)⟩⟩

/-- C4: key resolution is deterministic: a document with a truthy `id` gets
exactly that value as its Primary key; lacking that, a structured `_id`
carrying an `$oid` payload yields the payload, a plain-string `_id` is used
as-is, and any other truthy `_id` is coerced with `str(...)`. -/
theorem key_resolution_deterministic :
    (∀ (d : Doc) (v : Value), d.getD "id" (.vStr "") = v → v.truthy = true →
      resolveMarketId d = v) ∧
    (∀ (d : Doc) (fs : List (String × Scalar)) (p : Scalar),
      (d.getD "id" (.vStr "")).truthy = false →
      d.getD "_id" (.vStr "") = .vDict fs → dictGet fs "$oid" = some p →
      resolveMarketId d = p.toValue) ∧
    (∀ (d : Doc) (s : String), (d.getD "id" (.vStr "")).truthy = false →
      d.getD "_id" (.vStr "") = .vStr s → resolveMarketId d = .vStr s) ∧
    (∀ (d : Doc) (v : Value), (d.getD "id" (.vStr "")).truthy = false →
      d.getD "_id" (.vStr "") = v → v.truthy = true →
      (∀ s, v ≠ .vStr s) →
      (∀ fs, v = .vDict fs → dictGet fs "$oid" = none) →
      resolveMarketId d = .vStr v.pyStr) := by
  refine ⟨?_, ?_, ?_, ?_⟩
  · intro d v h1 h2
    simp [resolveMarketId, h1, h2]
  · intro d fs p h1 h2 h3
    simp [resolveMarketId, h1, h2, h3]
  · intro d s h1 h2
    simp [resolveMarketId, h1, h2]
  · intro d v h1 h2 h3 hns hfs
    cases v with
    | vNull => exact absurd h3 (by decide)
    | vStr s => exact absurd rfl (hns s)
    | vDict fs => simp [resolveMarketId, h1, h2, h3, hfs fs rfl]
    | vBool b => simp [resolveMarketId, h1, h2, h3]
    | vInt n => simp [resolveMarketId, h1, h2, h3]
    | vFloat f => simp [resolveMarketId, h1, h2, h3]

def docIdX : Doc := [("id", .vStr "X")]

def docOid : Doc := [("_id", .vDict [("$oid", .sStr "deadbeef")])]

theorem key_resolution_deterministic_witness :
    (Doc.getD docIdX "id" (.vStr "") = .vStr "X" ∧
      (Value.vStr "X").truthy = true ∧
      resolveMarketId docIdX = .vStr "X") ∧
    ((Doc.getD docOid "id" (.vStr "")).truthy = false ∧
      resolveMarketId docOid = .vStr "deadbeef") ∧
    (resolveMarketId [("_id", .vStr "plain")] = .vStr "plain") ∧
    (resolveMarketId [("_id", .vInt 7)] = .vStr "7") :=
  ⟨⟨by decide, by decide,
      key_resolution_deterministic.1 docIdX (.vStr "X") (by decide)
        (by decide)⟩,
    ⟨by decide,
      key_resolution_deterministic.2.1 docOid
        [("$oid", .sStr "deadbeef")] (.sStr "deadbeef") (by decide) (by decide)
        (by decide)⟩,
    key_resolution_deterministic.2.2.1 [("_id", .vStr "plain")] "plain"
      (by decide) (by decide),
    key_resolution_deterministic.2.2.2 [("_id", .vInt 7)] (.vInt 7) (by decide)
      (by decide) (by decide) (by intro s h; cases h) (by intro fs h; cases h)⟩

/-- C5: a volume boxed as a `$numberDouble` dict maps the payload literals
`"Infinity"`, `"-Infinity"` and `"NaN"` to the corresponding float special
values; any other string payload is parsed by `float(...)` (so `"42.5"`
normalizes to `42.5`), and a payload `float` cannot parse defaults the
volume to `0`. -/
theorem number_double_unboxing :
    (∀ (d : Doc) (fs : List (String × Scalar)),
      d.getD "volume" (.vInt 0) = .vDict fs →
      dictGet fs "$numberDouble" = some (.sStr "Infinity") →
      unboxVolume d = .vFloat .inf) ∧
    (∀ (d : Doc) (fs : List (String × Scalar)),
      d.getD "volume" (.vInt 0) = .vDict fs →
      dictGet fs "$numberDouble" = some (.sStr "-Infinity") →
      unboxVolume d = .vFloat .negInf) ∧
    (∀ (d : Doc) (fs : List (String × Scalar)),
      d.getD "volume" (.vInt 0) = .vDict fs →
      dictGet fs "$numberDouble" = some (.sStr "NaN") →
      unboxVolume d = .vFloat .nan) ∧
    (∀ (d : Doc) (fs : List (String × Scalar)) (s : String) (f : PyFloat),
      d.getD "volume" (.vInt 0) = .vDict fs →
      dictGet fs "$numberDouble" = some (.sStr s) →
      s ≠ "Infinity" → s ≠ "-Infinity" → s ≠ "NaN" →
      pyFloatParse s = some f → unboxVolume d = .vFloat f) ∧
    (∀ (d : Doc) (fs : List (String × Scalar)) (s : String),
      d.getD "volume" (.vInt 0) = .vDict fs →
      dictGet fs "$numberDouble" = some (.sStr s) →
      s ≠ "Infinity" → s ≠ "-Infinity" → s ≠ "NaN" →
      pyFloatParse s = none → unboxVolume d = .vInt 0) ∧
    (pyFloatParse "42.5" = some (.finite 425 1) ∧
      (PyFloat.finite 425 1).toRat = 85 / 2 ∧
      unboxVolume [("volume", .vDict [("$numberDouble", .sStr "42.5")])] =
        .vFloat (.finite 425 1)) := by
  refine ⟨?_, ?_, ?_, ?_, ?_, by decide, by norm_num [PyFloat.toRat], by decide⟩
  · intro d fs h1 h2
    simp [unboxVolume, h1, h2]
  · intro d fs h1 h2
    simp [unboxVolume, h1, h2]
  · intro d fs h1 h2
    simp [unboxVolume, h1, h2]
  · intro d fs s f h1 h2 hs1 hs2 hs3 hp
    simp [unboxVolume, h1, h2, hs1, hs2, hs3, Scalar.toValue, pyFloatFn, hp]
  · intro d fs s h1 h2 hs1 hs2 hs3 hp
    simp [unboxVolume, h1, h2, hs1, hs2, hs3, Scalar.toValue, pyFloatFn, hp]

theorem number_double_unboxing_witness :
    (Doc.getD [("volume", .vDict [("$numberDouble", .sStr "Infinity")])]
        "volume" (.vInt 0) = .vDict [("$numberDouble", .sStr "Infinity")] ∧
      unboxVolume [("volume", .vDict [("$numberDouble", .sStr "Infinity")])] =
        .vFloat .inf) ∧
    unboxVolume [("volume", .vDict [("$numberDouble", .sStr "-Infinity")])] =
      .vFloat .negInf ∧
    unboxVolume [("volume", .vDict [("$numberDouble", .sStr "NaN")])] =
      .vFloat .nan ∧
    unboxVolume [("volume", .vDict [("$numberDouble", .sStr "42.5")])] =
      .vFloat (.finite 425 1) ∧
    unboxVolume [("volume", .vDict [("$numberDouble", .sStr "wat")])] =
      .vInt 0 :=
  ⟨⟨by decide,
      number_double_unboxing.1 _ [("$numberDouble", .sStr "Infinity")]
        (by decide) (by decide)⟩,
    number_double_unboxing.2.1 _ [("$numberDouble", .sStr "-Infinity")]
      (by decide) (by decide),
    number_double_unboxing.2.2.1 _ [("$numberDouble", .sStr "NaN")]
      (by decide) (by decide),
    number_double_unboxing.2.2.2.1 _ [("$numberDouble", .sStr "42.5")] "42.5"
      (.finite 425 1) (by decide) (by decide) (by decide) (by decide)
      (by decide) (by decide),
    number_double_unboxing.2.2.2.2.1 _ [("$numberDouble", .sStr "wat")] "wat"
      (by decide) (by decide) (by decide) (by decide) (by decide) (by decide)⟩

theorem tryFormats_none {s : String}
    (h : ∀ f ∈ dateFormats, strptime s f = none) :
    tryFormats dateFormats s = none := by
  have h1 := h fmtIsoMicroZ (by simp [dateFormats])
  have h2 := h fmtIsoZ (by simp [dateFormats])
  have h3 := h fmtSpace (by simp [dateFormats])
  have h4 := h fmtDateOnly (by simp [dateFormats])
  simp only [dateFormats, tryFormats, h1, h2, h3, h4]

/-- C6: `parse_date` tries exactly the four formats
`%Y-%m-%dT%H:%M:%S.%fZ`, `%Y-%m-%dT%H:%M:%SZ`, `%Y-%m-%d %H:%M:%S`,
`%Y-%m-%d` in this fixed order with the first match winning; empty/absent
input and strings matching no format give `None`, never an error; and
`"2026-01-01T00:00:00.000000Z"` parses to a datetime whose canonical ISO
rendering carries exactly the input's date component. -/
theorem parse_date_formats :
    dateFormats = [fmtIsoMicroZ, fmtIsoZ, fmtSpace, fmtDateOnly] ∧
    (∀ (s : String) (tm : TM), strptime s fmtIsoMicroZ = some tm →
      tryFormats dateFormats s = some tm) ∧
    (∀ s : String, strptime s fmtIsoMicroZ = none → strptime s fmtIsoZ = none →
      strptime s fmtSpace = none →
      tryFormats dateFormats s = strptime s fmtDateOnly) ∧
    (∀ v : Value, v.truthy = false → parse_date v = .ok none) ∧
    (∀ s : String, (∀ f ∈ dateFormats, strptime s f = none) →
      parse_date (.vStr s) = .ok none) ∧
    parse_date (.vStr "not-a-date") = .ok none ∧
    (parse_date (.vStr "2026-01-01T00:00:00.000000Z") =
        .ok (some ⟨2026, 1, 1, 0, 0, 0, 0⟩) ∧
      TM.isoformat ⟨2026, 1, 1, 0, 0, 0, 0⟩ = "2026-01-01T00:00:00" ∧
      (TM.isoformat ⟨2026, 1, 1, 0, 0, 0, 0⟩).take 10 = "2026-01-01" ∧
      ("2026-01-01T00:00:00.000000Z" : String).take 10 = "2026-01-01") := by
  refine ⟨rfl, ?_, ?_, ?_, ?_, by decide, by decide, by decide, by decide,
    by decide⟩
  · intro s tm h
    simp only [dateFormats, tryFormats, h]
  · intro s h1 h2 h3
    simp only [dateFormats, tryFormats, h1, h2, h3]
    cases strptime s fmtDateOnly <;> rfl
  · intro v hv
    unfold parse_date
    rw [if_pos (by simp [hv])]
  · intro s h
    by_cases hs : (Value.vStr s).truthy
    · unfold parse_date
      rw [if_neg (by simp [hs])]
      show Except.ok (tryFormats dateFormats s) = Except.ok none
      rw [tryFormats_none h]
    · unfold parse_date
      rw [if_pos (by simp [hs])]

theorem parse_date_formats_witness :
    (strptime "2026-01-01T00:00:00.000000Z" fmtIsoMicroZ =
        some ⟨2026, 1, 1, 0, 0, 0, 0⟩ ∧
      tryFormats dateFormats "2026-01-01T00:00:00.000000Z" =
        some ⟨2026, 1, 1, 0, 0, 0, 0⟩) ∧
    (strptime "2026-05-06" fmtIsoMicroZ = none ∧
      strptime "2026-05-06" fmtIsoZ = none ∧
      strptime "2026-05-06" fmtSpace = none ∧
      tryFormats dateFormats "2026-05-06" = strptime "2026-05-06" fmtDateOnly ∧
      strptime "2026-05-06" fmtDateOnly = some ⟨2026, 5, 6, 0, 0, 0, 0⟩) ∧
    ((Value.vNull).truthy = false ∧ parse_date .vNull = .ok none ∧
      (Value.vStr "").truthy = false ∧ parse_date (.vStr "") = .ok none) ∧
    ((∀ f ∈ dateFormats, strptime "not-a-date" f = none) ∧
      parse_date (.vStr "not-a-date") = .ok none) :=
  ⟨⟨by decide,
      parse_date_formats.2.1 "2026-01-01T00:00:00.000000Z"
        ⟨2026, 1, 1, 0, 0, 0, 0⟩ (by decide)⟩,
    ⟨by decide, by decide, by decide,
      parse_date_formats.2.2.1 "2026-05-06" (by decide) (by decide) (by decide),
      by decide⟩,
    ⟨by decide, parse_date_formats.2.2.2.1 .vNull (by decide), by decide,
      parse_date_formats.2.2.2.1 (.vStr "") (by decide)⟩,
    ⟨by decide, parse_date_formats.2.2.2.2.1 "not-a-date" (by decide)⟩⟩

theorem resolveMarketId_empty {d : Doc}
    (h1 : (d.getD "id" (.vStr "")).truthy = false)
    (h2 : (d.getD "_id" (.vStr "")).truthy = false) :
    resolveMarketId d = .vStr "" := by
  have h1' : ¬ ((d.getD "id" (.vStr "")).truthy = true) := by simp [h1]
  simp only [resolveMarketId]
  rw [if_neg h1']
  cases hv : d.getD "_id" (.vStr "") with
  | vDict fs =>
      have hfs : fs = [] := by
        rw [hv] at h2
        simpa [Value.truthy] using h2
      subst hfs
      simp [dictGet, Value.truthy]
  | vStr s =>
      have hs : s = "" := by
        rw [hv] at h2
        simpa [Value.truthy] using h2
      subst hs
      rfl
  | vNull => simp [Value.truthy]
  | vBool b =>
      rw [hv] at h2
      simp only [Value.truthy] at h2
      simp [Value.truthy, h2]
  | vInt n =>
      rw [hv] at h2
      simp only [Value.truthy, decide_eq_false_iff_not, not_not] at h2
      simp [Value.truthy, h2]
  | vFloat f =>
      rw [hv] at h2
      simp only [Value.truthy] at h2
      simp [Value.truthy, h2]

/-- The batch of C2: nine documents with ids `"1"`–`"9"` and one document
with no identifier at all. -/
def docsTen : List Doc :=
  [[("id", .vStr "1")], [("id", .vStr "2")], [("id", .vStr "3")],
   [("id", .vStr "4")], [("id", .vStr "5")], [("id", .vStr "6")],
   [("id", .vStr "7")], [("id", .vStr "8")], [("id", .vStr "9")],
   [("title", .vStr "orphan")]]

/-- An environment carrying every required configuration variable. -/
def envAll : String → Option String := fun _ => some "x"

/-- A store that accepts every connection attempt. -/
def availAll : Nat → Bool := fun _ => true

/-- C2 counterexample: the caller never rejects a record whose normalized
identifier is empty.  On the ten-document batch with one identifier-less
document, ten Market nodes exist afterwards (one keyed by `""`), not nine,
and all ten documents count as processed — no skip happens. -/
theorem missing_id_not_rejected_cx :
    (import_markets_to_neo4j Graph.empty Stats.zero docsTen
        100).1.markets.length = 10 ∧
    ¬ ((import_markets_to_neo4j Graph.empty Stats.zero docsTen
        100).1.markets.length = 9) ∧
    resolveMarketId [("title", .vStr "orphan")] = .vStr "" ∧
    (import_markets_to_neo4j Graph.empty Stats.zero docsTen
        100).1.hasMarket (.vStr "") ∧
    (import_markets_to_neo4j Graph.empty Stats.zero docsTen
        100).2.processed = 10 := by
  decide

/-- C2 (amended): when neither `id` nor `_id` is truthy the normalized
identifier is the empty string, but the record is not rejected: the Market
node keyed by the resolved identifier is always created and the document is
counted, so the ten-document batch with one identifier-less document yields
ten Market nodes, `processed = 10`, no skipped count, and the run exits `0`. -/
theorem missing_id_empty_key_node_created :
    (∀ d : Doc, (d.getD "id" (.vStr "")).truthy = false →
      (d.getD "_id" (.vStr "")).truthy = false →
      resolveMarketId d = .vStr "") ∧
    (∀ (g : Graph) (d : Doc) (mid : Value) (p : MarketProps),
      normalizeMarket d = .ok (mid, p) →
      (processGraph g d).hasMarket mid) ∧
    (∀ (st : Stats) (d : Doc) (mid : Value) (p : MarketProps),
      normalizeMarket d = .ok (mid, p) →
      (processStats st d).processed = st.processed + 1 ∧
        (processStats st d).markets_created = st.markets_created + 1) ∧
    ((import_markets_to_neo4j Graph.empty Stats.zero docsTen
        100).1.markets.length = 10 ∧
      (import_markets_to_neo4j Graph.empty Stats.zero docsTen
        100).2.processed = 10 ∧
      (mainRun envAll availAll availAll false none Graph.empty docsTen).1 = 0 ∧
      (mainRun envAll availAll availAll false none Graph.empty
        docsTen).2.2.processed = 10) := by
  refine ⟨fun d h1 h2 => resolveMarketId_empty h1 h2, ?_, ?_,
    by decide, by decide, by decide, by decide⟩
  · intro g d mid p h
    rw [processGraph_of_ok h]
    exact linkPhase_hasMarket_mono _ _ (mergeMarket_hasMarket_self g mid p)
  · intro st d mid p h
    unfold processStats
    rw [h]
    exact ⟨rfl, rfl⟩

theorem missing_id_empty_key_node_created_witness :
    ((Doc.getD [("title", .vStr "orphan")] "id" (.vStr "")).truthy = false ∧
      (Doc.getD [("title", .vStr "orphan")] "_id" (.vStr "")).truthy = false ∧
      resolveMarketId [("title", .vStr "orphan")] = .vStr "") ∧
    (normalizeMarket [("title", .vStr "orphan")] =
        .ok (.vStr "",
          ⟨.vStr "orphan", .vStr "", .vStr "", .vStr "", .finite 0 0, 0,
           .vStr "", .vStr "", .vStr "", .vStr "", .vStr "", none, none, none,
           none⟩) ∧
      (processGraph Graph.empty [("title", .vStr "orphan")]).hasMarket
        (.vStr "") ∧
      (processStats Stats.zero [("title", .vStr "orphan")]).processed =
        Stats.zero.processed + 1) :=
  ⟨⟨by decide, by decide,
      missing_id_empty_key_node_created.1 [("title", .vStr "orphan")]
        (by decide) (by decide)⟩,
    by decide,
    missing_id_empty_key_node_created.2.1 Graph.empty [("title", .vStr "orphan")]
      (.vStr "")
      ⟨.vStr "orphan", .vStr "", .vStr "", .vStr "", .finite 0 0, 0, .vStr "",
       .vStr "", .vStr "", .vStr "", .vStr "", none, none, none, none⟩
      (by decide),
    (missing_id_empty_key_node_created.2.2.1 Stats.zero
      [("title", .vStr "orphan")] (.vStr "")
      ⟨.vStr "orphan", .vStr "", .vStr "", .vStr "", .finite 0 0, 0, .vStr "",
       .vStr "", .vStr "", .vStr "", .vStr "", none, none, none, none⟩
      (by decide)).1⟩

/-- C3 counterexample: a plain (unboxed) non-numeric string volume makes
`float(volume)` raise `ValueError`, which escapes `create_market_node` —
the normalization does not degrade every malformed field to a default. -/
theorem plain_volume_raises_cx :
    normalizeMarket [("id", .vStr "m1"), ("volume", .vStr "abc")] =
      .error "ValueError: could not convert string to float" ∧
    create_market_node Graph.empty [("id", .vStr "m1"), ("volume", .vStr "abc")] =
      .error "ValueError: could not convert string to float" ∧
    parse_date (.vInt 5) = .error "TypeError: strptime() argument 1 must be str" := by
  decide

/-- C3 (amended): only the boxed `$numberDouble` path is exception-safe —
an unparseable boxed payload degrades the volume to `0` and the subsequent
`float(volume) if volume else 0.0` yields `0.0` without raising; but a
truthy plain string that `float`/`int` cannot parse raises an error that
escapes `create_market_node`; the batch loop catches it and skips the
record, leaving graph and counters unchanged. -/
theorem boxed_defaults_plain_raises :
    (∀ (d : Doc) (fs : List (String × Scalar)) (s : String),
      d.getD "volume" (.vInt 0) = .vDict fs →
      dictGet fs "$numberDouble" = some (.sStr s) →
      s ≠ "Infinity" → s ≠ "-Infinity" → s ≠ "NaN" → pyFloatParse s = none →
      unboxVolume d = .vInt 0 ∧
        volumeProp (unboxVolume d) = .ok (.finite 0 0)) ∧
    (∀ s : String, s ≠ "" → pyFloatParse s = none →
      volumeProp (.vStr s) =
        .error "ValueError: could not convert string to float") ∧
    (∀ s : String, s ≠ "" → pyIntParse s = none →
      commentProp (.vStr s) =
        .error "ValueError: invalid literal for int() with base 10") ∧
    (∀ (g : Graph) (st : Stats) (d : Doc) (e : String),
      normalizeMarket d = .error e →
      processGraph g d = g ∧ processStats st d = st) := by
  refine ⟨?_, ?_, ?_, ?_⟩
  · intro d fs s h1 h2 hs1 hs2 hs3 hp
    have hu : unboxVolume d = .vInt 0 := by
      simp [unboxVolume, h1, h2, hs1, hs2, hs3, Scalar.toValue, pyFloatFn, hp]
    exact ⟨hu, by rw [hu]; decide⟩
  · intro s hs hp
    simp [volumeProp, Value.truthy, hs, pyFloatFn, hp]
  · intro s hs hp
    simp [commentProp, Value.truthy, hs, pyIntFn, hp]
  · intro g st d e h
    refine ⟨processGraph_of_error h, ?_⟩
    unfold processStats
    rw [h]

theorem boxed_defaults_plain_raises_witness :
    (unboxVolume [("volume", .vDict [("$numberDouble", .sStr "wat")])] =
        .vInt 0 ∧
      volumeProp (unboxVolume
        [("volume", .vDict [("$numberDouble", .sStr "wat")])]) =
          .ok (.finite 0 0)) ∧
    volumeProp (.vStr "abc") =
      .error "ValueError: could not convert string to float" ∧
    commentProp (.vStr "abc") =
      .error "ValueError: invalid literal for int() with base 10" ∧
    (processGraph Graph.empty [("id", .vStr "m1"), ("volume", .vStr "abc")] =
        Graph.empty ∧
      processStats Stats.zero [("id", .vStr "m1"), ("volume", .vStr "abc")] =
        Stats.zero) :=
  ⟨boxed_defaults_plain_raises.1 _ [("$numberDouble", .sStr "wat")] "wat"
      (by decide) (by decide) (by decide) (by decide) (by decide) (by decide),
    boxed_defaults_plain_raises.2.1 "abc" (by decide) (by decide),
    boxed_defaults_plain_raises.2.2.1 "abc" (by decide) (by decide),
    boxed_defaults_plain_raises.2.2.2 Graph.empty Stats.zero
      [("id", .vStr "m1"), ("volume", .vStr "abc")]
      "ValueError: could not convert string to float" (by decide)⟩

theorem normalizeMarket_createdAt {d : Doc} {mid : Value} {p : MarketProps}
    (h : normalizeMarket d = .ok (mid, p)) :
    ∃ o, parse_date (createdAtRaw d) = .ok o ∧
      p.createdAt = o.map TM.isoformat := by
  unfold normalizeMarket at h
  cases h1 : parse_date (d.getD "startDate" .vNull) <;> rw [h1] at h
  case error => simp at h
  case ok o1 =>
  cases h2 : parse_date (d.getD "endDate" .vNull) <;> rw [h2] at h
  case error => simp at h
  case ok o2 =>
  cases h3 : parse_date (createdAtRaw d) <;> rw [h3] at h
  case error => simp at h
  case ok o3 =>
  cases h4 : parse_date (d.getD "closedTime" .vNull) <;> rw [h4] at h
  case error => simp at h
  case ok o4 =>
  cases h5 : volumeProp (unboxVolume d) <;> rw [h5] at h
  case error => simp at h
  case ok v5 =>
  cases h6 : commentProp (d.getD "commentCount" (.vInt 0)) <;> rw [h6] at h
  case error => simp at h
  case ok c6 =>
  refine ⟨o3, rfl, ?_⟩
  simp only [Except.ok.injEq, Prod.mk.injEq] at h
  rw [← h.2]

/-- The C10 document: a truthy but unparseable `createdAt` next to a
parseable `creationDate`. -/
def dC10 : Doc :=
  [("id", .vStr "m1"), ("createdAt", .vStr "not-a-date"),
   ("creationDate", .vStr "2026-01-01")]

/-- C10 counterexample: with `createdAt = "not-a-date"` (truthy but
unparseable) and `creationDate = "2026-01-01"` (parseable), the normalized
`createdAt` attribute is absent — `creationDate` is never consulted once
`createdAt` is truthy, refuting "only if both are absent or unparseable is
the attribute absent". -/
theorem created_at_shortcircuit_cx :
    (normalizeMarket dC10).map (fun r => r.2.createdAt) = .ok none ∧
    parse_date (Doc.getD dC10 "creationDate" .vNull) =
      .ok (some ⟨2026, 1, 1, 0, 0, 0, 0⟩) ∧
    createdAtRaw dC10 = .vStr "not-a-date" := by
  decide

/-- C10 (amended): a falsy `createdAt` falls back to `creationDate`; a
truthy `createdAt` is used and `creationDate` is never consulted; the
normalized attribute is exactly the parse of whichever value `or`
selected, so it is absent iff that single selected value fails to parse. -/
theorem created_at_fallback_semantics :
    (∀ d : Doc, (d.getD "createdAt" .vNull).truthy = false →
      createdAtRaw d = d.getD "creationDate" .vNull) ∧
    (∀ d : Doc, (d.getD "createdAt" .vNull).truthy = true →
      createdAtRaw d = d.getD "createdAt" .vNull) ∧
    (∀ (d : Doc) (mid : Value) (p : MarketProps),
      normalizeMarket d = .ok (mid, p) →
      ∃ o, parse_date (createdAtRaw d) = .ok o ∧
        p.createdAt = o.map TM.isoformat) := by
  refine ⟨?_, ?_, fun d mid p h => normalizeMarket_createdAt h⟩
  · intro d h
    simp [createdAtRaw, pyOr, h]
  · intro d h
    simp [createdAtRaw, pyOr, h]

theorem created_at_fallback_semantics_witness :
    ((Doc.getD [("creationDate", .vStr "2026-01-01")] "createdAt"
        .vNull).truthy = false ∧
      createdAtRaw [("creationDate", .vStr "2026-01-01")] =
        .vStr "2026-01-01") ∧
    ((Doc.getD dC10 "createdAt" .vNull).truthy = true ∧
      createdAtRaw dC10 = .vStr "not-a-date") ∧
    (normalizeMarket dC10 = .ok (.vStr "m1", propsBare) ∧
      (∃ o, parse_date (createdAtRaw dC10) = .ok o ∧
        propsBare.createdAt = o.map TM.isoformat)) :=
  ⟨⟨by decide,
      created_at_fallback_semantics.1 [("creationDate", .vStr "2026-01-01")]
        (by decide)⟩,
    ⟨by decide, created_at_fallback_semantics.2.1 dC10 (by decide)⟩,
    ⟨by decide,
      created_at_fallback_semantics.2.2 dC10 (.vStr "m1") propsBare
        (by decide)⟩⟩

theorem connectTry_none (avail : Nat → Bool) (dly : Nat) :
    ∀ (fuel a slept : Nat), (∀ j, a ≤ j → j < a + fuel → avail j = false) →
      connectTry avail dly a fuel slept = (none, slept + dly * (fuel - 1)) := by
  intro fuel
  induction fuel with
  | zero =>
      intro a slept _
      simp [connectTry]
  | succ f ih =>
      intro a slept h
      have ha : avail a = false := h a le_rfl (by omega)
      cases f with
      | zero => simp [connectTry, ha]
      | succ f2 =>
          have hstep : connectTry avail dly a (f2 + 2) slept =
              connectTry avail dly (a + 1) (f2 + 1) (slept + dly) := by
            simp [connectTry, ha]
          rw [hstep, ih (a + 1) (slept + dly)
            (fun j hj1 hj2 => h j (by omega) (by omega))]
          have harith : slept + dly + dly * (f2 + 1 - 1) =
              slept + dly * (f2 + 2 - 1) := by
            have : f2 + 2 - 1 = (f2 + 1 - 1) + 1 := by omega
            rw [this]
            ring
          rw [harith]

theorem connectTry_some (avail : Nat → Bool) (dly : Nat) :
    ∀ (fuel a slept k : Nat), a ≤ k → k < a + fuel → avail k = true →
      (∀ j, a ≤ j → j < k → avail j = false) →
      connectTry avail dly a fuel slept = (some k, slept + dly * (k - a)) := by
  intro fuel
  induction fuel with
  | zero =>
      intro a slept k h1 h2 _ _
      exact absurd h2 (by omega)
  | succ f ih =>
      intro a slept k h1 h2 h3 h4
      by_cases hak : k = a
      · subst hak
        simp [connectTry, h3]
      · have ha : avail a = false := h4 a le_rfl (by omega)
        have hf : f ≠ 0 := by omega
        have hstep : connectTry avail dly a (f + 1) slept =
            connectTry avail dly (a + 1) f (slept + dly) := by
          simp [connectTry, ha, hf]
        rw [hstep, ih (a + 1) (slept + dly) k (by omega) (by omega) h3
          (fun j hj1 hj2 => h4 j (by omega) hj2)]
        have harith : slept + dly + dly * (k - (a + 1)) =
            slept + dly * (k - a) := by
          have : k - a = (k - (a + 1)) + 1 := by omega
          rw [this]
          ring
        rw [harith]

/-- A store that rejects attempt 1 and accepts every attempt from 2 on. -/
def availFrom2 : Nat → Bool := fun n => decide (2 ≤ n)

/-- C8 counterexample: connection to the document store is *not* retried.
Against a store that becomes ready at attempt 2, the retried Neo4j
connection succeeds (attempt 2, one 2-second sleep) while
`connect_mongodb` — a single attempt — fails, and the run aborts with exit
code 1 without importing anything. -/
theorem mongodb_not_retried_cx :
    connect_mongodb availFrom2 = none ∧
    connect_neo4j availFrom2 30 2 = (some 2, 2) ∧
    mainRun envAll availFrom2 availAll false none Graph.empty [] =
      (1, Graph.empty, Stats.zero) := by
  decide

/-- C8 (amended): only the Neo4j connection is retried — up to 30 attempts
with a fixed 2-second delay, succeeding at the first available attempt and
failing after exhaustion having slept `2·29` seconds; the MongoDB
connection is a single attempt.  If the environment check or either
connection fails the run exits `1` with nothing imported; otherwise it
exits `0` carrying the import's final graph and counters, even if
documents were skipped. -/
theorem connection_retry_and_exit :
    (∀ (avail : Nat → Bool) (k : Nat), 1 ≤ k → k ≤ 30 → avail k = true →
      (∀ j, 1 ≤ j → j < k → avail j = false) →
      connect_neo4j avail 30 2 = (some k, 2 * (k - 1))) ∧
    (∀ avail : Nat → Bool, (∀ j, 1 ≤ j → j ≤ 30 → avail j = false) →
      connect_neo4j avail 30 2 = (none, 2 * 29)) ∧
    (∀ avail : Nat → Bool, avail 1 = false → connect_mongodb avail = none) ∧
    (∀ (env : String → Option String) (mA nA : Nat → Bool) (dk : Bool)
        (ch : Option Bool) (g : Graph) (docs : List Doc),
      check_environment_variables env = false →
      mainRun env mA nA dk ch g docs = (1, g, Stats.zero)) ∧
    (∀ (env : String → Option String) (mA nA : Nat → Bool) (dk : Bool)
        (ch : Option Bool) (g : Graph) (docs : List Doc),
      connect_mongodb mA = none →
      mainRun env mA nA dk ch g docs = (1, g, Stats.zero)) ∧
    (∀ (env : String → Option String) (mA nA : Nat → Bool) (dk : Bool)
        (ch : Option Bool) (g : Graph) (docs : List Doc),
      (connect_neo4j nA 30 2).1 = none →
      mainRun env mA nA dk ch g docs = (1, g, Stats.zero)) ∧
    (∀ (env : String → Option String) (mA nA : Nat → Bool) (dk : Bool)
        (ch : Option Bool) (g : Graph) (docs : List Doc) (n : Nat),
      check_environment_variables env = true →
      connect_mongodb mA = some 1 →
      (connect_neo4j nA 30 2).1 = some n →
      mainRun env mA nA dk ch g docs =
        (0,
          (import_markets_to_neo4j (clear_neo4j_graph g dk ch) Stats.zero
            docs 100).1,
          (import_markets_to_neo4j (clear_neo4j_graph g dk ch) Stats.zero
            docs 100).2)) := by
  refine ⟨?_, ?_, ?_, ?_, ?_, ?_, ?_⟩
  · intro avail k h1 h2 h3 h4
    unfold connect_neo4j
    rw [connectTry_some avail 2 30 1 0 k h1 (by omega) h3 h4]
    simp
  · intro avail h
    unfold connect_neo4j
    rw [connectTry_none avail 2 30 1 0 (fun j hj1 hj2 => h j hj1 (by omega))]
  · intro avail h
    simp [connect_mongodb, h]
  · intro env mA nA dk ch g docs h
    simp [mainRun, h]
  · intro env mA nA dk ch g docs h
    unfold mainRun
    rw [h]
    split
    · rfl
    · rfl
  · intro env mA nA dk ch g docs h
    unfold mainRun
    rw [h]
    split
    · rfl
    · cases hm : connect_mongodb mA <;> rfl
  · intro env mA nA dk ch g docs n hEnv hM hN
    unfold mainRun
    rw [hEnv, hM, hN]
    simp

theorem connection_retry_and_exit_witness :
    (availAll 1 = true ∧ connect_neo4j availAll 30 2 = (some 1, 2 * 0)) ∧
    connect_neo4j (fun _ => false) 30 2 = (none, 2 * 29) ∧
    (availFrom2 1 = false ∧ connect_mongodb availFrom2 = none) ∧
    mainRun (fun _ => none) availAll availAll false none Graph.empty [] =
      (1, Graph.empty, Stats.zero) ∧
    mainRun envAll availFrom2 availAll false none Graph.empty docsTen =
      (1, Graph.empty, Stats.zero) ∧
    mainRun envAll availAll (fun _ => false) false none Graph.empty docsTen =
      (1, Graph.empty, Stats.zero) ∧
    mainRun envAll availAll availAll false none Graph.empty docsTen =
      (0,
        (import_markets_to_neo4j (clear_neo4j_graph Graph.empty false none)
          Stats.zero docsTen 100).1,
        (import_markets_to_neo4j (clear_neo4j_graph Graph.empty false none)
          Stats.zero docsTen 100).2) :=
  ⟨⟨by decide,
      connection_retry_and_exit.1 availAll 1 (by decide) (by decide) (by decide)
        (by omega)⟩,
    connection_retry_and_exit.2.1 (fun _ => false) (fun j hj1 hj2 => rfl),
    ⟨by decide, connection_retry_and_exit.2.2.1 availFrom2 (by decide)⟩,
    connection_retry_and_exit.2.2.2.1 (fun _ => none) availAll availAll false
      none Graph.empty [] (by decide),
    connection_retry_and_exit.2.2.2.2.1 envAll availFrom2 availAll false none
      Graph.empty docsTen (by decide),
    connection_retry_and_exit.2.2.2.2.2.1 envAll availAll (fun _ => false)
      false none Graph.empty docsTen (by decide),
    connection_retry_and_exit.2.2.2.2.2.2 envAll availAll availAll false none
      Graph.empty docsTen 1 (by decide) (by decide) (by decide)⟩
